import Mathlib

/-
Verification of the flag-coach rotation engine.

The repository contains three revisions of the same single-file React app:
  src/src/App.jsx      (v7, the primary variant; namespace V7 below)
  src/unnamed/part_000 (v6; namespace V6 below)
  src/unnamed/part_001 (v7 with hardcoded bench overrides; namespace P1 below)

The UI markup, localStorage persistence, and modal handling are external
collaborators; the engine state modelled here is the subset of the state
object that the rotation engine reads and writes: roster, queue, series,
history, settings, recentRoleByPlayer, captainPlan (and benchMeta for the
part_001 variant).  Randomness (crypto.getRandomValues inside rngShuffle)
is modelled by passing the shuffle function as an explicit parameter;
theorems that need it assume only that it permutes its input.
-/

set_option maxHeartbeats 1000000

namespace FlagCoach

/-- Phase of play: which formation and role set apply. -/
inductive Phase where
  | Offense : Phase
  | Defense : Phase
deriving DecidableEq, Repr

/-- One entry of recentRoleByPlayer: the most recent role (family) assigned
to a player and the series number in which it was assigned. -/
structure RecentRec where
  role : String
  series : Nat
deriving DecidableEq, Repr

/-- A roster entry, as produced by createEmptyTallies and normalizePlayer.
The per-role play counts (the pos object in the source) are an association
list from role key to count, mirroring the JS object with its key order. -/
structure Player where
  name : String
  active : Bool
  sits : Nat
  captains : Nat
  pos : List (String × Nat)
  id : Nat
  canQB : Bool
  canCenter : Bool
deriving DecidableEq, Repr

/-- Engine settings (the settings object of the state). -/
structure Settings where
  teamSize : Nat
  noRepeatWindow : Nat
deriving DecidableEq, Repr

/-- The captainPlan object of the v7 App.jsx state. -/
structure CaptainPlan where
  seasonTargetTotal : Nat
  recentPicks : List Nat
  pendingPicks : List Nat
  gamesRemaining : Nat
  nextGroupIndex : Nat
deriving DecidableEq, Repr

/-- A history entry recorded by nextSeries in the v7 App.jsx variant. -/
structure HistoryEntry where
  phase : Phase
  series : Nat
  sitIds : List Nat
  playIds : List Nat
  offense : Option (List (String × Nat))
  defense : Option (List (String × Nat))
  recentBefore : List (Nat × RecentRec)
deriving DecidableEq, Repr

-- ---------------------------------------------------------------
-- Association-list helpers for JS objects keyed by string / by id
-- ---------------------------------------------------------------

/-- Reading pos of a role key: undefined becomes none. -/
def lookupPos (pos : List (String × Nat)) (r : String) : Option Nat :=
  (pos.find? (fun e => e.1 == r)).map (fun e => e.2)

/-- Writing pos of a role key, JS object semantics: an existing key keeps
its position, a new key is appended at the end. -/
def setPos (pos : List (String × Nat)) (r : String) (v : Nat) : List (String × Nat) :=
  if (pos.find? (fun e => e.1 == r)).isSome then
    pos.map (fun e => if e.1 == r then (r, v) else e)
  else
    pos ++ [(r, v)]

/-- Reading recentRoleByPlayer of a player id. -/
def lookupRecent (m : List (Nat × RecentRec)) (pid : Nat) : Option RecentRec :=
  (m.find? (fun e => e.1 == pid)).map (fun e => e.2)

/-- Writing recentRoleByPlayer of a player id, JS object semantics. -/
def setRecent (m : List (Nat × RecentRec)) (pid : Nat) (rec : RecentRec) :
    List (Nat × RecentRec) :=
  if (m.find? (fun e => e.1 == pid)).isSome then
    m.map (fun e => if e.1 == pid then (pid, rec) else e)
  else
    m ++ [(pid, rec)]

/-- JS queue.slice(advance) ++ queue.slice(0, advance): rotate left. -/
def leftRot (k : Nat) (l : List Nat) : List Nat :=
  l.drop k ++ l.take k

/-- JS queue.slice(-advance) ++ queue.slice(0, -advance): rotate right.
JS negative slice indices clamp at 0, which List.take and List.drop with
truncated Nat subtraction reproduce exactly. -/
def rightRot (k : Nat) (l : List Nat) : List Nat :=
  l.drop (l.length - k) ++ l.take (l.length - k)

/-- byId lookup: roster.find for a given player id. -/
def byIdF (roster : List Player) (pid : Nat) : Option Player :=
  roster.find? (fun p => p.id == pid)

/-- JS toLowerCase restricted to the character-wise lowering relevant for
roster names (computable in the kernel, unlike String.toLower). -/
def lowerStr (s : String) : String :=
  String.mk (s.data.map Char.toLower)

-- ---------------------------------------------------------------
-- Roles and role families (shared by the two v7 variants)
-- ---------------------------------------------------------------

/-- OFFENSE_POSITIONS keys in declaration order (v7 variants). -/
def OFFENSE_ROLES : List String :=
  ["off_te_left", "off_c", "off_te_right", "off_wr", "off_rb_left", "off_qb", "off_rb_right"]

/-- DEFENSE_POSITIONS keys in declaration order (v7 variants). -/
def DEFENSE_ROLES : List String :=
  ["def_cb_left", "def_de_left", "def_dt", "def_de_right", "def_cb_right", "def_spy", "def_blitzer"]

def ALL_ROLES : List String := OFFENSE_ROLES ++ DEFENSE_ROLES

/-- ROLE_META restricted to the label field: role key to display label. -/
def ROLE_LABELS : List (String × String) :=
  [("off_te_left", "TE"), ("off_c", "C"), ("off_te_right", "TE"), ("off_wr", "WR"),
   ("off_rb_left", "RB"), ("off_qb", "QB"), ("off_rb_right", "RB"),
   ("def_cb_left", "CB"), ("def_de_left", "DE"), ("def_dt", "DT"), ("def_de_right", "DE"),
   ("def_cb_right", "CB"), ("def_spy", "Spy"), ("def_blitzer", "Blitzer")]

/-- LEGACY_ROLE_MAP: v6 role keys to v7 role keys, in source order. -/
def LEGACY_ROLE_MAP : List (String × String) :=
  [("QB", "off_qb"), ("RB1", "off_rb_left"), ("RB2", "off_rb_right"), ("C", "off_c"),
   ("WR", "off_wr"), ("TE1", "off_te_left"), ("TE2", "off_te_right"), ("DT", "def_dt"),
   ("DE1", "def_de_left"), ("DE2", "def_de_right"), ("CB1", "def_cb_left"),
   ("CB2", "def_cb_right"), ("Spy", "def_spy"), ("Blitzer", "def_blitzer")]

/-- JS role.replace of a trailing digit run with the empty string
(implemented over the character list so it evaluates in the kernel). -/
def stripTrailingDigits (s : String) : String :=
  String.mk ((s.data.reverse.dropWhile Char.isDigit).reverse)

/-- roleGroup of the v7 variants: the ROLE_META label when the key is known,
otherwise the key with any trailing digits stripped.  The empty role string
maps to itself, mirroring the falsy guard of the source. -/
def roleGroup (role : String) : String :=
  if role = "" then role
  else
    match (ROLE_LABELS.find? (fun e => e.1 == role)).map (fun e => e.2) with
    | some l => l
    | none => stripTrailingDigits role

/-- migrateRoleKey of the v7 variants: legacy key mapped forward, anything
else unchanged (empty string maps to itself via the falsy guard). -/
def migrateRoleKey (role : String) : String :=
  if role = "" then role
  else
    match (LEGACY_ROLE_MAP.find? (fun e => e.1 == role)).map (fun e => e.2) with
    | some r => r
    | none => role

/-- ROLE_ABILITY_CHECK: off_qb requires canQB, off_c requires canCenter,
every other role has no ability check. -/
def abilityCheck (role : String) (p : Player) : Bool :=
  if role == "off_qb" then p.canQB
  else if role == "off_c" then p.canCenter
  else true

/-- The role family of the glossary: the position group ignoring numeric
suffixes (used to state the anti-repeat claim over the v6 role keys). -/
def roleFamily (r : String) : String := stripTrailingDigits r

-- ---------------------------------------------------------------
-- Captain groups (v7 App.jsx, calculateCaptainGroups)
-- ---------------------------------------------------------------

def DEFAULT_CAPTAIN_GAMES : Nat := 3

/-- calculateCaptainGroups of App.jsx.  gamesRemaining equal to 0 models the
JS falsy fallback to DEFAULT_CAPTAIN_GAMES.  The loop bumps the last
remainder entries by one; the JS guard idx greater or equal 0 is modelled on
integers exactly as written. -/
def calculateCaptainGroups (playerCount gamesRemaining : Nat) : List Nat :=
  let games := max 1 (if gamesRemaining = 0 then DEFAULT_CAPTAIN_GAMES else gamesRemaining)
  if playerCount = 0 then []
  else
    let base := playerCount / games
    let remainder := playerCount % games
    let groups0 := List.replicate games base
    let groups1 := (List.range remainder).foldl
      (fun gs i =>
        let idx : Nat := games - 1 - i
        if (0 : Int) ≤ (games : Int) - 1 - (i : Int) then
          gs.set idx (gs.getD idx 0 + 1)
        else gs)
      groups0
    groups1.filter (fun size => 0 < size)

-- ---------------------------------------------------------------
-- Engine state of the v7 App.jsx variant
-- ---------------------------------------------------------------

/-- The engine-relevant fields of the v7 App.jsx state object.  The fields
lastQB, gameNumber, seasonHistory and ui are never read by the rotation
engine, the undo path, or the claims, and are omitted. -/
structure AppState where
  roster : List Player
  queue : List Nat
  series : Nat
  history : List HistoryEntry
  settings : Settings
  recent : List (Nat × RecentRec)
  captainPlan : CaptainPlan
deriving DecidableEq, Repr

/-- createEmptyTallies: all role counts zero, active, no sits, no captains;
the crypto.randomUUID id is passed in as a parameter. -/
def createEmptyTallies (name : String) (newId : Nat) : Player :=
  { name := name
    active := true
    sits := 0
    captains := 0
    pos := ALL_ROLES.map (fun r => (r, 0))
    id := newId
    canQB := true
    canCenter := true }

-- ---------------------------------------------------------------
-- Position assignment engine (v7 App.jsx)
-- ---------------------------------------------------------------

/-- The first filter of eligiblePoolForRole: drop already-assigned ids,
unknown ids, and ids failing the role ability check. -/
def allowedPool (roster : List Player) (role : String)
    (candidates assigned : List Nat) : List Nat :=
  candidates.filter (fun pid =>
    !(decide (pid ∈ assigned)) &&
    (match byIdF roster pid with
     | none => false
     | some p => abilityCheck role p))

/-- The strict anti-repeat filter: drop ids whose recent record shows the
same role group within the window. -/
def strictNoRepeat (recent : List (Nat × RecentRec)) (window currentSeries : Nat)
    (group : String) (pool : List Nat) : List Nat :=
  pool.filter (fun pid =>
    match lookupRecent recent pid with
    | none => true
    | some rec => !(decide (currentSeries - window ≤ rec.series) && (rec.role == group)))

/-- The anti-repeat step with its fallback: when the window is enabled and
the strict filter leaves somebody, narrow to it; otherwise keep the pool. -/
def antiRepeatPool (recent : List (Nat × RecentRec)) (window currentSeries : Nat)
    (role : String) (pool : List Nat) : List Nat :=
  if 0 < window then
    let filtered := strictNoRepeat recent window currentSeries (roleGroup role) pool
    if filtered = [] then pool else filtered
  else pool

/-- The count of a pool member for a role, as the source reads it through
byId: undefined props give none. -/
def cnt (byId : Nat → Option Player) (role : String) (pid : Nat) : Option Nat :=
  (byId pid).bind (fun p => lookupPos p.pos role)

/-- The balanced-random tail of eligiblePoolForRole: prefer the zero-count
subset, otherwise the minimum-count subset; a JS undefined count poisons
Math.min to NaN and yields the empty list. -/
def fairSelectPool (shuffle : List Nat → List Nat) (byId : Nat → Option Player)
    (role : String) (pool : List Nat) : List Nat :=
  let zeroPool := pool.filter (fun pid => decide (cnt byId role pid = some 0))
  if zeroPool = [] then
    let counts := pool.map (fun pid => cnt byId role pid)
    if counts.any (fun c => c.isNone) then []
    else
      match counts.reduceOption with
      | [] => []
      | v :: vs =>
        let minCount := vs.foldl Nat.min v
        shuffle (pool.filter (fun pid => decide (cnt byId role pid = some minCount)))
  else shuffle zeroPool

/-- eligiblePoolForRole of v7 App.jsx: ability filter, anti-repeat filter
with fallback, then the balanced-random selection pool. -/
def eligiblePoolForRole (shuffle : List Nat → List Nat) (roster : List Player)
    (recent : List (Nat × RecentRec)) (settings : Settings) (role : String)
    (candidates assigned : List Nat) (currentSeries : Nat) : List Nat :=
  let allowed := allowedPool roster role candidates assigned
  if allowed = [] then []
  else fairSelectPool shuffle (byIdF roster) role
    (antiRepeatPool recent settings.noRepeatWindow currentSeries role allowed)

/-- pickForRole: head of the (already shuffled) eligible pool. -/
def pickForRole (shuffle : List Nat → List Nat) (roster : List Player)
    (recent : List (Nat × RecentRec)) (settings : Settings) (role : String)
    (candidates assigned : List Nat) (currentSeries : Nat) : Option Nat :=
  (eligiblePoolForRole shuffle roster recent settings role candidates assigned currentSeries).head?

/-- The role loop of nextSeries: build the role-to-player mapping in role
order, marking each chosen id as assigned before the next role. -/
def assignMapping (shuffle : List Nat → List Nat) (roster : List Player)
    (recent : List (Nat × RecentRec)) (settings : Settings) (roles : List String)
    (playIds : List Nat) (currentSeries : Nat) : List (String × Nat) :=
  (roles.foldl
    (fun (st : List (String × Nat) × List Nat) r =>
      match pickForRole shuffle roster recent settings r playIds st.2 currentSeries with
      | some pid => (st.1 ++ [(r, pid)], st.2 ++ [pid])
      | none => st)
    ([], [])).1

/-- The per-player roster update of nextSeries: sitters gain a sit, the
first role mapped to a player bumps that position count when present. -/
def seriesPlayerUpdate (sitIds : List Nat) (mapping : List (String × Nat))
    (p : Player) : Player :=
  if p.id ∈ sitIds then { p with sits := p.sits + 1 }
  else
    match mapping.find? (fun e => e.2 == p.id) with
    | some e =>
      match lookupPos p.pos e.1 with
      | some v => { p with pos := setPos p.pos e.1 (v + 1) }
      | none => p
    | none => p

/-- The per-player roster update of undo: sitters lose a sit (floored at 0),
the first role mapped to a player in the popped entry loses a count. -/
def undoPlayerUpdate (phase : Phase) (sitIds : List Nat)
    (offense defense : Option (List (String × Nat))) (p : Player) : Player :=
  if p.id ∈ sitIds then { p with sits := p.sits - 1 }
  else
    let mapping := if phase = Phase.Offense then offense else defense
    match mapping.bind (fun m => m.find? (fun e => e.2 == p.id)) with
    | some e =>
      match lookupPos p.pos e.1 with
      | some v => { p with pos := setPos p.pos e.1 (v - 1) }
      | none => p
    | none => p

/-- The recent-role update of nextSeries: every assignment writes its role
group and the current series number. -/
def recentUpdate (recent : List (Nat × RecentRec)) (mapping : List (String × Nat))
    (currentSeries : Nat) : List (Nat × RecentRec) :=
  mapping.foldl
    (fun m e => setRecent m e.2 { role := roleGroup e.1, series := currentSeries }) recent

/-- normalizeRecentMap: every record is rewritten with its role passed
through roleGroup and its series defaulted (identity on Nat). -/
def normalizeRecentMap (m : List (Nat × RecentRec)) : List (Nat × RecentRec) :=
  m.map (fun e => (e.1, { role := roleGroup e.2.role, series := e.2.series }))

/-- The number of active players. -/
def activeCount (s : AppState) : Nat := (s.roster.filter (fun p => p.active)).length

/-- sitCount as derived in the component: active minus team size, floored. -/
def sitCountOf (s : AppState) : Nat := activeCount s - s.settings.teamSize

/-- The formation role list of a phase. -/
def rolesFor : Phase → List String
  | Phase.Offense => OFFENSE_ROLES
  | Phase.Defense => DEFENSE_ROLES

/-- nextSeries of v7 App.jsx (the guard alert path leaves the state
untouched). -/
def nextSeries (shuffle : List Nat → List Nat) (which : Phase) (s : AppState) : AppState :=
  if activeCount s < s.settings.teamSize then s
  else
    let currentSeries := s.series + 1
    let sitCount := sitCountOf s
    let advance := max 1 sitCount
    let sitIds := s.queue.take sitCount
    let playIds := (s.queue.drop sitCount).take s.settings.teamSize
    let mapping := assignMapping shuffle s.roster s.recent s.settings (rolesFor which)
      playIds currentSeries
    let offense := if which = Phase.Offense then some mapping else none
    let defense := if which = Phase.Defense then some mapping else none
    let entry : HistoryEntry :=
      { phase := which, series := currentSeries, sitIds := sitIds, playIds := playIds,
        offense := offense, defense := defense, recentBefore := s.recent }
    { s with
      roster := s.roster.map (seriesPlayerUpdate sitIds mapping)
      queue := leftRot advance s.queue
      series := currentSeries
      history := s.history ++ [entry]
      recent := recentUpdate s.recent mapping currentSeries }

/-- undo of v7 App.jsx: no-op on empty history, otherwise pop the last
entry, reverse the counter updates, rotate the queue back by the advance
recomputed from the (unchanged) active count, and restore the recorded
recent map through normalizeRecentMap. -/
def undo (s : AppState) : AppState :=
  match s.history.getLast? with
  | none => s
  | some last =>
    let advance := max 1 (activeCount s - s.settings.teamSize)
    { s with
      roster := s.roster.map (undoPlayerUpdate last.phase last.sitIds last.offense last.defense)
      queue := rightRot advance s.queue
      series := s.series - 1
      history := s.history.dropLast
      recent := normalizeRecentMap last.recentBefore }

-- ---------------------------------------------------------------
-- Roster actions and resets (v7 App.jsx)
-- ---------------------------------------------------------------

/-- resetPositionsOnly: zero every position count of every player and clear
series, history, and the recent map.  Note: sits and captains are not
touched. -/
def resetPositionsOnly (s : AppState) : AppState :=
  { s with
    roster := s.roster.map (fun p => { p with pos := p.pos.map (fun e => (e.1, 0)) })
    series := 0
    history := []
    recent := [] }

/-- The duplicate test of addPlayer: some roster name equal up to case. -/
def hasDupName (roster : List Player) (name : String) : Bool :=
  roster.any (fun p => lowerStr p.name == lowerStr name)

/-- Insertion into a list sorted by name (models the JS sort comparator
localeCompare as the string order). -/
def insertByName (p : Player) : List Player → List Player
  | [] => [p]
  | q :: qs => if p.name ≤ q.name then p :: q :: qs else q :: insertByName p qs

/-- Sort a roster by name (insertion sort). -/
def sortByName (l : List Player) : List Player := l.foldr insertByName []

/-- addPlayer of v7 App.jsx.  The prompt result is the name parameter (the
empty string models a cancelled prompt, an early return); the fresh UUID is
the newId parameter.  On a duplicate the roster is kept, but the queue and
the captain plan are still recomputed from it. -/
def addPlayer (newId : Nat) (name : String) (s : AppState) : AppState :=
  if name = "" then s
  else
    let exists_ := hasDupName s.roster name
    let newPlayer := createEmptyTallies name newId
    let roster := if exists_ then s.roster else sortByName (s.roster ++ [newPlayer])
    let queue := (roster.filter (fun p => p.active)).map (fun p => p.id)
    let activeCnt := (roster.filter (fun p => p.active)).length
    let groups := calculateCaptainGroups activeCnt
      (if s.captainPlan.gamesRemaining = 0 then DEFAULT_CAPTAIN_GAMES
       else s.captainPlan.gamesRemaining)
    let captainPlan :=
      { s.captainPlan with
        seasonTargetTotal := roster.length * 2
        nextGroupIndex := min s.captainPlan.nextGroupIndex (groups.length - 1) }
    { s with roster := roster, queue := queue, captainPlan := captainPlan }

-- ---------------------------------------------------------------
-- Load normalization and import (v7 App.jsx)
-- ---------------------------------------------------------------

/-- A stored player record before normalization: fields that the source
tests with hasOwnProperty or typeof are optional.  Stored pos values are
modelled as numbers (non-numeric stored junk is out of scope). -/
structure RawPlayer where
  name : String
  active : Option Bool
  sits : Option Nat
  captains : Option Nat
  pos : List (String × Nat)
  id : Nat
  canQB : Option Bool
  canCenter : Option Bool
deriving DecidableEq, Repr

/-- normalizePlayer of v7 App.jsx: migrate legacy pos keys, backfill every
defined role with 0, default ability flags to true, and reset the captain
count to 0 when the record predates the ability flags (neither canQB nor
canCenter stored). -/
def normalizePlayer (player : RawPlayer) : Player :=
  let pos1 := LEGACY_ROLE_MAP.foldl
    (fun ps lc =>
      match lookupPos ps lc.1 with
      | some v =>
        (setPos ps lc.2 ((lookupPos ps lc.2).getD 0 + v)).filter (fun e => !(e.1 == lc.1))
      | none => ps)
    player.pos
  let pos2 := ALL_ROLES.foldl
    (fun ps role =>
      match lookupPos ps role with
      | some _ => ps
      | none => ps ++ [(role, 0)])
    pos1
  let hadAbilityFlags := player.canQB.isSome || player.canCenter.isSome
  let captains0 := player.captains.getD 0
  { name := player.name
    active := player.active.getD true
    sits := player.sits.getD 0
    captains := if hadAbilityFlags then captains0 else 0
    pos := pos2
    id := player.id
    canQB := player.canQB.getD true
    canCenter := player.canCenter.getD true }

/-- The raw record corresponding to a fully-populated stored player. -/
def Player.toRaw (p : Player) : RawPlayer :=
  { name := p.name, active := some p.active, sits := some p.sits,
    captains := some p.captains, pos := p.pos, id := p.id,
    canQB := some p.canQB, canCenter := some p.canCenter }

/-- normalizeHistoryEntries: migrate the role keys of both mappings of every
entry. -/
def normalizeHistoryEntries (history : List HistoryEntry) : List HistoryEntry :=
  history.map (fun entry =>
    let mapRoles := fun (mapping : Option (List (String × Nat))) =>
      mapping.map (fun m => m.map (fun e => (migrateRoleKey e.1, e.2)))
    { entry with offense := mapRoles entry.offense, defense := mapRoles entry.defense })

/-- The captainPlan merge of loadInitialState, restricted to fully-typed
stored plans: the falsy seasonTargetTotal falls back to twice the stored or
base roster size, and picks referencing removed players are pruned. -/
def normalizeCaptainPlan (base : AppState) (storedRoster : List Player)
    (cp : CaptainPlan) : CaptainPlan :=
  let stt :=
    if cp.seasonTargetTotal ≠ 0 then cp.seasonTargetTotal
    else if storedRoster.length * 2 ≠ 0 then storedRoster.length * 2
    else base.roster.length * 2
  let validIds := storedRoster.map (fun p => p.id)
  { seasonTargetTotal := stt
    gamesRemaining := cp.gamesRemaining
    nextGroupIndex := cp.nextGroupIndex
    recentPicks := cp.recentPicks.filter (fun pid => decide (pid ∈ validIds))
    pendingPicks := cp.pendingPicks.filter (fun pid => decide (pid ∈ validIds)) }

/-- The normalization half of loadInitialState (v7 App.jsx), restricted to
stored data that already parses into the engine state shape: every stored
player runs through normalizePlayer, the queue is pruned to active stored
ids with missing actives appended, history role keys are migrated, and the
recent map is normalized.  The base parameter stands for the default
baseState built from buildInitialRoster. -/
def loadNormalizeData (base : AppState) (d : AppState) : AppState :=
  let storedRoster := d.roster.map (fun p => normalizePlayer p.toRaw)
  let activeIds := (storedRoster.filter (fun p => p.active)).map (fun p => p.id)
  let storedQueue := d.queue.filter (fun pid => decide (pid ∈ activeIds))
  let queueTail := activeIds.filter (fun pid => !(decide (pid ∈ storedQueue)))
  let q := storedQueue ++ queueTail
  { roster := if storedRoster = [] then base.roster else storedRoster
    queue := if q = [] then base.queue else q
    series := d.series
    history := normalizeHistoryEntries d.history
    settings := d.settings
    recent := normalizeRecentMap d.recent
    captainPlan := normalizeCaptainPlan base storedRoster d.captainPlan }

/-- importState of v7 App.jsx: a snapshot that fails JSON.parse is rejected
with an alert and no state change; a snapshot that parses is adopted
verbatim by setState, with none of the load normalization re-run. -/
def importApply (parsed : Option AppState) (s : AppState) : AppState :=
  match parsed with
  | none => s
  | some d => d

-- ---------------------------------------------------------------
-- The v6 variant (src/unnamed/part_000): assignment engine
-- ---------------------------------------------------------------

namespace V6

/-- The v6 role keys carry the numeric suffixes directly. -/
def OFFENSE_ROLES : List String := ["QB", "RB1", "RB2", "C", "WR", "TE1", "TE2"]

def DEFENSE_ROLES : List String := ["DT", "DE1", "DE2", "CB1", "CB2", "Spy", "Blitzer"]

/-- The first filter of the v6 eligiblePoolForRole: only availability. -/
def availPool (candidates assigned : List Nat) : List Nat :=
  candidates.filter (fun pid => !(decide (pid ∈ assigned)))

/-- eligiblePoolForRole of v6: no ability check, and the anti-repeat filter
compares the exact role key (rec.role equal to role), not the role family.
The fallback recomputes the availability pool. -/
def eligiblePoolForRole (shuffle : List Nat → List Nat) (byId : Nat → Option Player)
    (recent : List (Nat × RecentRec)) (settings : Settings) (role : String)
    (candidates assigned : List Nat) (currentSeries : Nat) : List Nat :=
  let pool := availPool candidates assigned
  if pool = [] then []
  else
    let pool2 :=
      if 0 < settings.noRepeatWindow then
        let filtered := strictNoRepeat recent settings.noRepeatWindow currentSeries role pool
        if filtered = [] then availPool candidates assigned else filtered
      else pool
    fairSelectPool shuffle byId role pool2

/-- pickForRole of v6: head of the shuffled pool. -/
def pickForRole (shuffle : List Nat → List Nat) (byId : Nat → Option Player)
    (recent : List (Nat × RecentRec)) (settings : Settings) (role : String)
    (candidates assigned : List Nat) (currentSeries : Nat) : Option Nat :=
  (eligiblePoolForRole shuffle byId recent settings role candidates assigned currentSeries).head?

end V6

-- ---------------------------------------------------------------
-- The part_001 variant (namespace P1): bench overrides by name
-- ---------------------------------------------------------------

namespace P1

def BENCH_PRIORITY_FIRST_OFFENSE : List String := ["Logan L", "Atticus", "Gunnar"]

def MUST_PLAY_FIRST_DEFENSE : List String := BENCH_PRIORITY_FIRST_OFFENSE

def BENCH_NEVER_ALL : List String := ["CJ", "Niko", "Barrett"]

structure BenchMeta where
  firstOffenseHandled : Bool
  firstDefenseHandled : Bool
deriving DecidableEq, Repr

def DEFAULT_BENCH_META : BenchMeta :=
  { firstOffenseHandled := false, firstDefenseHandled := false }

/-- A part_001 history entry: legacy entries may lack benchMetaBefore, so
the field is optional (the hasOwnProperty test of undo). -/
structure HistEntry where
  phase : Phase
  series : Nat
  sitIds : List Nat
  playIds : List Nat
  offense : Option (List (String × Nat))
  defense : Option (List (String × Nat))
  recentBefore : List (Nat × RecentRec)
  benchMetaBefore : Option BenchMeta
deriving DecidableEq, Repr

/-- The engine-relevant fields of the part_001 state object. -/
structure St where
  roster : List Player
  queue : List Nat
  series : Nat
  history : List HistEntry
  settings : Settings
  recent : List (Nat × RecentRec)
  benchMeta : BenchMeta
deriving DecidableEq, Repr

def findActivePlayerIdByName (roster : List Player) (name : String) : Option Nat :=
  (roster.find? (fun p => p.active && (lowerStr p.name == lowerStr name))).map (fun p => p.id)

/-- PLAYER_ROLE_RESTRICTIONS: per-name allow-lists, offense and defense. -/
def PLAYER_ROLE_RESTRICTIONS (name : String) : Option (List String × List String) :=
  if name == "Atticus" then
    some (["off_te_left", "off_te_right"], ["def_de_left", "def_de_right", "def_dt"])
  else none

/-- The restriction test inside the part_001 eligiblePoolForRole: a null
scope (role in neither formation) passes. -/
def restrictionOk (role : String) (p : Player) : Bool :=
  match PLAYER_ROLE_RESTRICTIONS p.name with
  | none => true
  | some rs =>
    if role ∈ FlagCoach.OFFENSE_ROLES then decide (role ∈ rs.1)
    else if role ∈ FlagCoach.DEFENSE_ROLES then decide (role ∈ rs.2)
    else true

/-- The first filter of the part_001 eligiblePoolForRole. -/
def allowedPool (roster : List Player) (role : String)
    (candidates assigned : List Nat) : List Nat :=
  candidates.filter (fun pid =>
    !(decide (pid ∈ assigned)) &&
    (match byIdF roster pid with
     | none => false
     | some p => abilityCheck role p && restrictionOk role p))

def eligiblePoolForRole (shuffle : List Nat → List Nat) (roster : List Player)
    (recent : List (Nat × RecentRec)) (settings : Settings) (role : String)
    (candidates assigned : List Nat) (currentSeries : Nat) : List Nat :=
  let allowed := allowedPool roster role candidates assigned
  if allowed = [] then []
  else fairSelectPool shuffle (byIdF roster) role
    (antiRepeatPool recent settings.noRepeatWindow currentSeries role allowed)

def pickForRole (shuffle : List Nat → List Nat) (roster : List Player)
    (recent : List (Nat × RecentRec)) (settings : Settings) (role : String)
    (candidates assigned : List Nat) (currentSeries : Nat) : Option Nat :=
  (eligiblePoolForRole shuffle roster recent settings role candidates assigned currentSeries).head?

def assignMapping (shuffle : List Nat → List Nat) (roster : List Player)
    (recent : List (Nat × RecentRec)) (settings : Settings) (roles : List String)
    (playIds : List Nat) (currentSeries : Nat) : List (String × Nat) :=
  (roles.foldl
    (fun (st : List (String × Nat) × List Nat) r =>
      match pickForRole shuffle roster recent settings r playIds st.2 currentSeries with
      | some pid => (st.1 ++ [(r, pid)], st.2 ++ [pid])
      | none => st)
    ([], [])).1

/-- JS Array.indexOf on the queue; a missing id maps to the length (the JS
minus one only feeds a guard that is then false either way). -/
def idxOfN : List Nat → Nat → Nat
  | [], _ => 0
  | a :: l, x => if a == x then 0 else idxOfN l x + 1

/-- The ids named in BENCH_PRIORITY_FIRST_OFFENSE that are active and in
the working queue, in the hardcoded name order. -/
def priorityIdsOf (roster : List Player) (wq : List Nat) : List Nat :=
  (BENCH_PRIORITY_FIRST_OFFENSE.filterMap (findActivePlayerIdByName roster)).filter
    (fun pid => decide (pid ∈ wq))

/-- The first-offense override: up to sitCount priority ids are moved to
the front of the working queue. -/
def firstOffenseQueue (roster : List Player) (sitCount : Nat) (wq : List Nat) : List Nat :=
  let priorityIds := priorityIdsOf roster wq
  if priorityIds = [] then wq
  else
    let seats := min sitCount priorityIds.length
    let idsToFront := priorityIds.take seats
    let rest := wq.filter (fun pid => !(decide (pid ∈ idsToFront)))
    idsToFront ++ rest

def requiredIdsOf (roster : List Player) (wq : List Nat) : List Nat :=
  (MUST_PLAY_FIRST_DEFENSE.filterMap (findActivePlayerIdByName roster)).filter
    (fun pid => decide (pid ∈ wq))

/-- Insertion sort of ids by their index in the working queue (the JS sort
comparator wq.indexOf a minus wq.indexOf b). -/
def insertByIdx (wq : List Nat) (x : Nat) : List Nat → List Nat
  | [] => [x]
  | a :: l => if idxOfN wq x ≤ idxOfN wq a then x :: a :: l else a :: insertByIdx wq x l

def sortByQueueIndex (wq : List Nat) (l : List Nat) : List Nat :=
  l.foldr (insertByIdx wq) []

/-- The first-defense override: the required ids are pulled out of the
queue and reinserted directly after the bench slice, in queue order. -/
def firstDefenseQueue (roster : List Player) (sitCount : Nat) (wq : List Nat) : List Nat :=
  let requiredIds := requiredIdsOf roster wq
  if requiredIds = [] then wq
  else
    let requiredOrdered := sortByQueueIndex wq requiredIds
    let filteredQueue := wq.filter (fun pid => !(decide (pid ∈ requiredOrdered)))
    filteredQueue.take sitCount ++ requiredOrdered ++ filteredQueue.drop sitCount

def avoidIdsOf (roster : List Player) (wq : List Nat) : List Nat :=
  (BENCH_NEVER_ALL.filterMap (findActivePlayerIdByName roster)).filter
    (fun pid => decide (pid ∈ wq))

/-- The no-triple-sit override: when all three named avoid ids would sit,
the first of them is swapped with the first non-avoid playing id. -/
def neverAllSwap (roster : List Player) (sitCount teamSize : Nat) (wq : List Nat) : List Nat :=
  if sitCount = 0 then wq
  else
    let sitIds := wq.take sitCount
    let playIds := (wq.drop sitCount).take teamSize
    let avoidIds := avoidIdsOf roster wq
    if avoidIds.length = BENCH_NEVER_ALL.length ∧ ∀ pid ∈ avoidIds, pid ∈ sitIds then
      match playIds.find? (fun pid => !(decide (pid ∈ avoidIds))) with
      | none => wq
      | some swapCandidate =>
        match avoidIds.find? (fun pid => decide (pid ∈ sitIds)) with
        | none => wq
        | some swapInBench =>
          let bI := idxOfN wq swapInBench
          let pI := idxOfN wq swapCandidate
          if bI < wq.length ∧ pI < wq.length then
            (wq.set bI (wq.getD pI 0)).set pI (wq.getD bI 0)
          else wq
    else wq

/-- The part_001 offense role order: off_qb and off_c first. -/
def prioritizedOffenseRoles : List String :=
  (["off_qb", "off_c"].filter (fun r => decide (r ∈ FlagCoach.OFFENSE_ROLES))) ++
  (FlagCoach.OFFENSE_ROLES.filter (fun r => !(r == "off_qb") && !(r == "off_c")))

def rolesFor : Phase → List String
  | Phase.Offense => prioritizedOffenseRoles
  | Phase.Defense => FlagCoach.DEFENSE_ROLES

/-- nextSeries of part_001: the bench overrides rewrite the working queue
before the sit and play slices are cut, and the rotation at the end applies
to the rewritten queue. -/
def nextSeries (shuffle : List Nat → List Nat) (which : Phase) (s : St) : St :=
  let totalActive := (s.roster.filter (fun p => p.active)).length
  if totalActive < s.settings.teamSize then s
  else
    let currentSeries := s.series + 1
    let sitCount := totalActive - s.settings.teamSize
    let advance := max 1 sitCount
    let bm := s.benchMeta
    let wq1 :=
      if which = Phase.Offense ∧ bm.firstOffenseHandled = false ∧ 0 < sitCount then
        firstOffenseQueue s.roster sitCount s.queue
      else s.queue
    let bm1 :=
      if which = Phase.Offense ∧ bm.firstOffenseHandled = false then
        { bm with firstOffenseHandled := true }
      else bm
    let wq2 :=
      if which = Phase.Defense ∧ bm.firstDefenseHandled = false then
        firstDefenseQueue s.roster sitCount wq1
      else wq1
    let bm2 :=
      if which = Phase.Defense ∧ bm.firstDefenseHandled = false then
        { bm1 with firstDefenseHandled := true }
      else bm1
    let wq3 := neverAllSwap s.roster sitCount s.settings.teamSize wq2
    let sitIds := wq3.take sitCount
    let playIds := (wq3.drop sitCount).take s.settings.teamSize
    let mapping := assignMapping shuffle s.roster s.recent s.settings (rolesFor which)
      playIds currentSeries
    let offense := if which = Phase.Offense then some mapping else none
    let defense := if which = Phase.Defense then some mapping else none
    let entry : HistEntry :=
      { phase := which, series := currentSeries, sitIds := sitIds, playIds := playIds,
        offense := offense, defense := defense, recentBefore := s.recent,
        benchMetaBefore := some bm }
    { s with
      roster := s.roster.map (seriesPlayerUpdate sitIds mapping)
      queue := leftRot advance wq3
      series := currentSeries
      history := s.history ++ [entry]
      recent := recentUpdate s.recent mapping currentSeries
      benchMeta := bm2 }

/-- undo of part_001: like the v7 undo, plus benchMeta restoration from the
entry when recorded.  The queue is rotated right from the current queue, so
a bench override applied by the undone series is not reversed. -/
def undo (s : St) : St :=
  match s.history.getLast? with
  | none => s
  | some last =>
    let totalActive := (s.roster.filter (fun p => p.active)).length
    let advance := max 1 (totalActive - s.settings.teamSize)
    let benchMeta2 :=
      match last.benchMetaBefore with
      | some bm => bm
      | none => s.benchMeta
    { s with
      roster := s.roster.map (undoPlayerUpdate last.phase last.sitIds last.offense last.defense)
      queue := rightRot advance s.queue
      series := s.series - 1
      history := s.history.dropLast
      recent := normalizeRecentMap last.recentBefore
      benchMeta := benchMeta2 }

end P1

-- ---------------------------------------------------------------
-- Iterated series and bench-turn counting (for the rotation claims)
-- ---------------------------------------------------------------

/-- Run a sequence of series transitions (v7 App.jsx). -/
def runSeq (shuffle : List Nat → List Nat) (phases : List Phase) (s : AppState) : AppState :=
  phases.foldl (fun st w => nextSeries shuffle w st) s

/-- How many of the first k series a fixed id spends on the bench, for an
initial queue q0 rotated left by two positions per series. -/
def sitTimes (q0 : List Nat) (x : Nat) (k : Nat) : Nat :=
  ((List.range k).filter (fun j => decide (x ∈ (q0.rotate (2 * j)).take 2))).length

-- ---------------------------------------------------------------
-- Concrete states used by counterexamples and witnesses
-- ---------------------------------------------------------------

/-- A minimal player record with a given name, id, sit count and pos map. -/
def mkPlayer (name : String) (pid : Nat) (sits : Nat) (captains : Nat)
    (pos : List (String × Nat)) : Player :=
  { name := name, active := true, sits := sits, captains := captains,
    pos := pos, id := pid, canQB := true, canCenter := true }

def basePlan : CaptainPlan :=
  { seasonTargetTotal := 4, recentPicks := [], pendingPicks := [],
    gamesRemaining := 3, nextGroupIndex := 0 }

/-- part_001 state for the undo round-trip counterexample: three active
players where Logan L sits only because of the first-offense override. -/
def c1state : P1.St :=
  { roster := [mkPlayer "Alpha" 2 0 0 [], mkPlayer "Bravo" 3 0 0 [], mkPlayer "Logan L" 1 0 0 []]
    queue := [2, 3, 1]
    series := 0
    history := []
    settings := { teamSize := 1, noRepeatWindow := 1 }
    recent := []
    benchMeta := P1.DEFAULT_BENCH_META }

/-- v7 App.jsx state with one player who has sat once (for the reset claim). -/
def c4state : AppState :=
  { roster := [mkPlayer "Pat" 1 1 2 [("off_qb", 3)]]
    queue := [1]
    series := 2
    history := []
    settings := { teamSize := 7, noRepeatWindow := 1 }
    recent := []
    captainPlan := basePlan }

/-- A base state standing for the default baseState of loadInitialState. -/
def c5base : AppState :=
  { roster := [mkPlayer "Base" 50 0 0 []]
    queue := [50]
    series := 0
    history := []
    settings := { teamSize := 7, noRepeatWindow := 1 }
    recent := []
    captainPlan := basePlan }

/-- An imported snapshot holding a legacy v6 role key, which load would
migrate but import adopts verbatim. -/
def c5data : AppState :=
  { roster := [mkPlayer "Old" 7 0 1 [("QB", 3)]]
    queue := [7]
    series := 1
    history := []
    settings := { teamSize := 7, noRepeatWindow := 1 }
    recent := []
    captainPlan := basePlan }

/-- v7 App.jsx state whose queue is mid-rotation (not in roster order), so
the queue rebuild on a duplicate add is observable. -/
def c6state : AppState :=
  { roster := [mkPlayer "Anna" 1 0 0 [], mkPlayer "Bert" 2 0 0 []]
    queue := [2, 1]
    series := 0
    history := []
    settings := { teamSize := 7, noRepeatWindow := 1 }
    recent := []
    captainPlan := basePlan }

/-- Nine-player v7 state for the bench rotation witness. -/
def c7wit : AppState :=
  { roster := (List.range 9).map (fun i => mkPlayer (toString (i + 1)) (i + 1) 0 0 [])
    queue := (List.range 9).map (fun i => i + 1)
    series := 0
    history := []
    settings := { teamSize := 7, noRepeatWindow := 1 }
    recent := []
    captainPlan := basePlan }

/-- One-player v7 state for the undo round-trip witness. -/
def c1wit : AppState :=
  { roster := [mkPlayer "Solo" 1 0 0 [("off_qb", 0)]]
    queue := [1]
    series := 0
    history := []
    settings := { teamSize := 1, noRepeatWindow := 1 }
    recent := []
    captainPlan := basePlan }

/-- Settings used by the anti-repeat examples. -/
def c3settings : Settings := { teamSize := 7, noRepeatWindow := 1 }

/-- v7 roster for the anti-repeat witness. -/
def c3v7Roster : List Player := [mkPlayer "Pat" 1 0 0 [("off_wr", 0)]]

/-- Recent map recording that player 1 was assigned the QB family in
series one (v7 keys). -/
def c3v7Recent : List (Nat × RecentRec) := [(1, { role := "QB", series := 1 })]

/-- v6 roster for the anti-repeat counterexample. -/
def c3v6Roster : List Player := [mkPlayer "Pat" 1 0 0 [("RB1", 0)]]

/-- Recent map recording that player 1 was assigned RB2 in series one
(v6 keys store the exact role). -/
def c3v6Recent : List (Nat × RecentRec) := [(1, { role := "RB2", series := 1 })]

/-- Roster for the fairness-selector witness: player 1 has already played
off_qb twice, player 2 never. -/
def c2roster : List Player :=
  [mkPlayer "Ada" 1 0 0 [("off_qb", 2)], mkPlayer "Ben" 2 0 0 [("off_qb", 0)]]

/-- A stored player record predating the ability flags, with a numeric
captain tally. -/
def rawLegacyPlayer : RawPlayer :=
  { name := "Vet", active := some true, sits := some 0, captains := some 5,
    pos := [("QB", 2)], id := 11, canQB := none, canCenter := none }

/-- part_001 state where all three first-offense priority names are active
but only two bench seats exist. -/
def c9state : P1.St :=
  { roster := [mkPlayer "Logan L" 1 0 0 [], mkPlayer "Atticus" 2 0 0 [],
               mkPlayer "Gunnar" 3 0 0 [], mkPlayer "Zed" 4 0 0 []]
    queue := [3, 4, 1, 2]
    series := 0
    history := []
    settings := { teamSize := 2, noRepeatWindow := 1 }
    recent := []
    benchMeta := P1.DEFAULT_BENCH_META }

-- ===============================================================
-- Theorems
-- ===============================================================

-- Helper lemmas on the captain-group computation

theorem filter_pos_sum (l : List Nat) :
    (l.filter (fun x => decide (0 < x))).sum = l.sum := by
  induction l with
  | nil => rfl
  | cons x tl ih =>
    by_cases hx : 0 < x
    · simp [List.filter_cons, hx, ih]
    · have hx0 : x = 0 := Nat.eq_zero_of_not_pos hx
      simp [List.filter_cons, hx, ih, hx0]

theorem set_replicate_append (m : Nat) (b v : Nat) (t : List Nat) :
    (List.replicate (m + 1) b ++ t).set m v = List.replicate m b ++ v :: t := by
  induction m with
  | zero => simp
  | succ k ih =>
    rw [List.replicate_succ]
    simpa [List.replicate_succ] using congrArg (List.cons b) ih

theorem getD_replicate_append (m : Nat) (b : Nat) (t : List Nat) :
    (List.replicate (m + 1) b ++ t).getD m 0 = b := by
  induction m with
  | zero => simp
  | succ k ih =>
    rw [List.replicate_succ]
    simpa [List.replicate_succ] using ih

theorem bump_fold_eq (g b : Nat) :
    ∀ r : Nat, r ≤ g →
      (List.range r).foldl
        (fun gs i =>
          let idx : Nat := g - 1 - i
          if (0 : Int) ≤ (g : Int) - 1 - (i : Int) then
            gs.set idx (gs.getD idx 0 + 1)
          else gs)
        (List.replicate g b)
      = List.replicate (g - r) b ++ List.replicate r (b + 1) := by
  intro r
  induction r with
  | zero => intro _; simp
  | succ k ih =>
    intro hk
    have hk' : k ≤ g := Nat.le_of_succ_le hk
    rw [List.range_succ, List.foldl_append, ih hk']
    have hcond : (0 : Int) ≤ (g : Int) - 1 - (k : Int) := by
      have : (k : Int) + 1 ≤ (g : Int) := by exact_mod_cast hk
      omega
    have hsub : g - k = (g - 1 - k) + 1 := by omega
    simp only [List.foldl_cons, List.foldl_nil, if_pos hcond]
    rw [hsub, set_replicate_append, getD_replicate_append]
    have : g - (k + 1) = g - 1 - k := by omega
    rw [this, ← List.replicate_succ]

theorem calculateCaptainGroups_eq (N G : Nat) (hN : 0 < N) :
    calculateCaptainGroups N G =
      (List.replicate
          ((max 1 (if G = 0 then DEFAULT_CAPTAIN_GAMES else G)) -
            N % (max 1 (if G = 0 then DEFAULT_CAPTAIN_GAMES else G)))
          (N / (max 1 (if G = 0 then DEFAULT_CAPTAIN_GAMES else G))) ++
        List.replicate (N % (max 1 (if G = 0 then DEFAULT_CAPTAIN_GAMES else G)))
          (N / (max 1 (if G = 0 then DEFAULT_CAPTAIN_GAMES else G)) + 1)).filter
        (fun size => decide (0 < size)) := by
  have hN0 : N ≠ 0 := Nat.pos_iff_ne_zero.mp hN
  have hg : 0 < max 1 (if G = 0 then DEFAULT_CAPTAIN_GAMES else G) := le_max_left 1 _
  have hr : N % (max 1 (if G = 0 then DEFAULT_CAPTAIN_GAMES else G)) ≤
      max 1 (if G = 0 then DEFAULT_CAPTAIN_GAMES else G) :=
    Nat.le_of_lt (Nat.mod_lt _ hg)
  simp only [calculateCaptainGroups, if_neg hN0]
  rw [bump_fold_eq _ _ _ hr]

/-- Claim C8: for every positive active-player count N and games-remaining
G, the captain groups returned by calculateCaptainGroups sum to exactly N,
no two group sizes differ by more than one, and the list is nondecreasing,
so the larger groups sit toward the end. -/
theorem c8_captain_groups (N G : Nat) (hN : 0 < N) :
    (calculateCaptainGroups N G).sum = N ∧
    (∀ a ∈ calculateCaptainGroups N G, ∀ b ∈ calculateCaptainGroups N G, a ≤ b + 1) ∧
    List.Pairwise (fun a b => a ≤ b) (calculateCaptainGroups N G) := by
  set g := max 1 (if G = 0 then DEFAULT_CAPTAIN_GAMES else G) with hgdef
  have hg : 0 < g := le_max_left 1 _
  have heq := calculateCaptainGroups_eq N G hN
  rw [← hgdef] at heq
  set b := N / g with hb
  set r := N % g with hrdef
  have hrg : r ≤ g := Nat.le_of_lt (Nat.mod_lt _ hg)
  refine ⟨?_, ?_, ?_⟩
  · rw [heq, filter_pos_sum]
    rw [List.sum_append, List.sum_replicate, List.sum_replicate, smul_eq_mul, smul_eq_mul]
    have expand : (g - r) * b + r * (b + 1) = g * b + r := by
      have h1 : (g - r) * b + r * b = g * b := by
        rw [← Nat.add_mul, Nat.sub_add_cancel hrg]
      calc (g - r) * b + r * (b + 1) = (g - r) * b + (r * b + r) := by ring_nf
        _ = ((g - r) * b + r * b) + r := by omega
        _ = g * b + r := by rw [h1]
    rw [expand, hb, hrdef]
    exact Nat.div_add_mod N g
  · intro a ha b' hb'
    rw [heq] at ha hb'
    have hmem : ∀ x ∈ (List.replicate (g - r) b ++ List.replicate r (b + 1)).filter
        (fun size => decide (0 < size)), x = b ∨ x = b + 1 := by
      intro x hx
      have hx' := List.mem_of_mem_filter hx
      rcases List.mem_append.mp hx' with h | h
      · exact Or.inl (List.eq_of_mem_replicate h)
      · exact Or.inr (List.eq_of_mem_replicate h)
    rcases hmem a ha with h1 | h1 <;> rcases hmem b' hb' with h2 | h2 <;> omega
  · rw [heq]
    apply List.Pairwise.filter
    rw [List.pairwise_append]
    refine ⟨List.pairwise_replicate.mpr ?_, List.pairwise_replicate.mpr ?_, ?_⟩
    · exact Or.inr le_rfl
    · exact Or.inr le_rfl
    · intro a ha b' hb'
      rw [List.eq_of_mem_replicate ha, List.eq_of_mem_replicate hb']
      omega

/-- Witness for C8 at ten players and three games. -/
theorem c8_captain_groups_witness :
    0 < 10 ∧
    ((calculateCaptainGroups 10 3).sum = 10 ∧
      (∀ a ∈ calculateCaptainGroups 10 3, ∀ b ∈ calculateCaptainGroups 10 3, a ≤ b + 1) ∧
      List.Pairwise (fun a b => a ≤ b) (calculateCaptainGroups 10 3)) :=
  ⟨by decide, c8_captain_groups 10 3 (by decide)⟩

-- Claim C4: resetPositionsOnly

/-- Counterexample for claim C4 as stated: resetPositionsOnly does not zero
the bench-sit counts; the single player of c4state keeps one sit. -/
theorem c4_counterexample :
    ∃ p ∈ (resetPositionsOnly c4state).roster, p.sits ≠ 0 := by decide

/-- Claim C4, amended: resetPositionsOnly zeroes every per-role count of
every player and leaves names, ids, active flags, ability flags, bench-sit
counts, captain counts, and the pos key set unchanged (sits are not reset;
only startNewGame resets them). -/
theorem c4_reset_positions_amended (s : AppState) :
    List.Forall₂
      (fun p q : Player =>
        q.name = p.name ∧ q.id = p.id ∧ q.active = p.active ∧ q.sits = p.sits ∧
        q.captains = p.captains ∧ q.canQB = p.canQB ∧ q.canCenter = p.canCenter ∧
        q.pos.map Prod.fst = p.pos.map Prod.fst ∧ ∀ e ∈ q.pos, e.2 = 0)
      s.roster (resetPositionsOnly s).roster := by
  have h : (resetPositionsOnly s).roster =
      s.roster.map (fun p => { p with pos := p.pos.map (fun e => (e.1, 0)) }) := rfl
  rw [h, List.forall₂_map_right_iff]
  rw [List.forall₂_same]
  intro p _
  refine ⟨rfl, rfl, rfl, rfl, rfl, rfl, rfl, ?_, ?_⟩
  · rw [List.map_map]; rfl
  · intro e he
    rcases List.mem_map.mp he with ⟨x, _, hx⟩
    rw [← hx]

/-- Witness instantiating the amended C4 theorem at a concrete state. -/
theorem c4_reset_positions_amended_witness :
    List.Forall₂
      (fun p q : Player =>
        q.name = p.name ∧ q.id = p.id ∧ q.active = p.active ∧ q.sits = p.sits ∧
        q.captains = p.captains ∧ q.canQB = p.canQB ∧ q.canCenter = p.canCenter ∧
        q.pos.map Prod.fst = p.pos.map Prod.fst ∧ ∀ e ∈ q.pos, e.2 = 0)
      c4state.roster (resetPositionsOnly c4state).roster :=
  c4_reset_positions_amended c4state

-- Claim C5: import versus load normalization

/-- Counterexample for claim C5 as stated: import does not re-run the load
normalization; a snapshot holding the legacy role key QB is adopted
verbatim while the load path migrates and backfills it. -/
theorem c5_counterexample :
    importApply (some c5data) c5base ≠ loadNormalizeData c5base c5data := by decide

/-- Claim C5, amended: importState only rejects a snapshot that fails JSON
parsing, leaving the state untouched in that case; a snapshot that parses
is adopted verbatim by setState, with none of the load-time normalization
(legacy key migration, role backfill, queue and history pruning) re-run. -/
theorem c5_import_amended :
    (∀ s : AppState, importApply none s = s) ∧
    (∀ d s : AppState, importApply (some d) s = d) :=
  ⟨fun _ => rfl, fun _ _ => rfl⟩

-- Claim C10: normalizePlayer discards captain counts of legacy records

/-- Claim C10: normalizePlayer (applied to every stored player on load)
resets the captain count to 0 whenever the stored record has neither a
canQB nor a canCenter field, even when a numeric captains value was
stored. -/
theorem c10_legacy_captains_reset (p : RawPlayer) (hq : p.canQB = none)
    (hc : p.canCenter = none) (n : Nat) (hn : p.captains = some n) :
    (normalizePlayer p).captains = 0 := by
  simp [normalizePlayer, hq, hc]

/-- Witness for C10: a legacy record with five stored captaincies loses
them all. -/
theorem c10_legacy_captains_reset_witness :
    rawLegacyPlayer.canQB = none ∧ rawLegacyPlayer.canCenter = none ∧
    rawLegacyPlayer.captains = some 5 ∧ (normalizePlayer rawLegacyPlayer).captains = 0 :=
  ⟨rfl, rfl, rfl, c10_legacy_captains_reset rawLegacyPlayer rfl rfl 5 rfl⟩

-- Claim C6: addPlayer

theorem insertByName_perm (p : Player) (l : List Player) :
    (insertByName p l).Perm (p :: l) := by
  induction l with
  | nil => exact List.Perm.refl _
  | cons q qs ih =>
    rw [insertByName]
    by_cases h : p.name ≤ q.name
    · rw [if_pos h]
    · rw [if_neg h]
      exact (List.Perm.cons q ih).trans (List.Perm.swap p q qs)

theorem sortByName_perm (l : List Player) : (sortByName l).Perm l := by
  induction l with
  | nil => exact List.Perm.refl _
  | cons p tl ih =>
    have h1 : sortByName (p :: tl) = insertByName p (sortByName tl) := rfl
    rw [h1]
    exact (insertByName_perm p (sortByName tl)).trans (List.Perm.cons p ih)

theorem insertByName_sorted (p : Player) (l : List Player)
    (hl : List.Pairwise (fun a b : Player => a.name ≤ b.name) l) :
    List.Pairwise (fun a b : Player => a.name ≤ b.name) (insertByName p l) := by
  induction l with
  | nil => simp [insertByName]
  | cons q qs ih =>
    rw [insertByName]
    rcases List.pairwise_cons.mp hl with ⟨hq, hqs⟩
    by_cases h : p.name ≤ q.name
    · rw [if_pos h]
      refine List.pairwise_cons.mpr ⟨?_, hl⟩
      intro x hx
      rcases List.mem_cons.mp hx with rfl | hx'
      · exact h
      · exact le_trans h (hq x hx')
    · rw [if_neg h]
      refine List.pairwise_cons.mpr ⟨?_, ih hqs⟩
      intro x hx
      have hmem : x ∈ p :: qs := (insertByName_perm p qs).mem_iff.mp hx
      rcases List.mem_cons.mp hmem with rfl | hx'
      · exact le_of_not_le h
      · exact hq x hx'

theorem sortByName_sorted (l : List Player) :
    List.Pairwise (fun a b : Player => a.name ≤ b.name) (sortByName l) := by
  induction l with
  | nil => simp [sortByName]
  | cons p tl ih => exact insertByName_sorted p (sortByName tl) ih

/-- Counterexample for claim C6 as stated: on a case-insensitive duplicate
add, the roster is kept but the bench queue is still rebuilt in roster
order, so the state is mutated (the mid-rotation queue of c6state is
reset). -/
theorem c6_counterexample :
    (addPlayer 99 "anna" c6state).roster = c6state.roster ∧
    (addPlayer 99 "anna" c6state).queue ≠ c6state.queue := by decide

/-- Claim C6, amended: in the v7 App.jsx variant, addPlayer with a
case-insensitive duplicate name keeps the roster but is not a no-op: the
bench queue is rebuilt as the active roster ids in roster order and the
captain-plan season target is recomputed.  With a fresh name it inserts a
player with all role counts 0, active, zero sits, zero captains, into
name-sorted position. -/
theorem c6_add_player_amended (newId : Nat) (name : String) (s : AppState)
    (hname : name ≠ "") :
    (hasDupName s.roster name = true →
      (addPlayer newId name s).roster = s.roster ∧
      (addPlayer newId name s).queue =
        (s.roster.filter (fun p => p.active)).map (fun p => p.id) ∧
      (addPlayer newId name s).captainPlan.seasonTargetTotal = s.roster.length * 2) ∧
    (hasDupName s.roster name = false →
      ((addPlayer newId name s).roster.Perm (createEmptyTallies name newId :: s.roster) ∧
        List.Pairwise (fun a b : Player => a.name ≤ b.name) (addPlayer newId name s).roster) ∧
      (createEmptyTallies name newId).name = name ∧
      (createEmptyTallies name newId).active = true ∧
      (createEmptyTallies name newId).sits = 0 ∧
      (createEmptyTallies name newId).captains = 0 ∧
      (∀ e ∈ (createEmptyTallies name newId).pos, e.2 = 0)) := by
  constructor
  · intro hdup
    simp [addPlayer, if_neg hname, hdup]
  · intro hdup
    refine ⟨⟨?_, ?_⟩, rfl, rfl, rfl, rfl, ?_⟩
    · have h : (addPlayer newId name s).roster =
          sortByName (s.roster ++ [createEmptyTallies name newId]) := by
        simp only [addPlayer, if_neg hname, hdup]
        rfl
      rw [h]
      exact (sortByName_perm _).trans (List.perm_append_singleton _ _)
    · have h : (addPlayer newId name s).roster =
          sortByName (s.roster ++ [createEmptyTallies name newId]) := by
        simp only [addPlayer, if_neg hname, hdup]
        rfl
      rw [h]
      exact sortByName_sorted _
    · intro e he
      rcases List.mem_map.mp he with ⟨x, _, hx⟩
      rw [← hx]

/-- Witness for the amended C6 theorem, on the fresh-name branch. -/
theorem c6_add_player_amended_witness :
    (addPlayer 9 "Cleo" c6state).roster.Perm (createEmptyTallies "Cleo" 9 :: c6state.roster) ∧
    List.Pairwise (fun a b : Player => a.name ≤ b.name) (addPlayer 9 "Cleo" c6state).roster :=
  ((c6_add_player_amended 9 "Cleo" c6state (by decide)).2 (by decide)).1

-- Claim C2: the fairness selector

theorem shuffle_head_mem (shuffle : List Nat → List Nat)
    (hsh : ∀ l : List Nat, (shuffle l).Perm l) (l : List Nat) (hne : l ≠ []) :
    ∃ c, (shuffle l).head? = some c ∧ c ∈ l := by
  cases hs : shuffle l with
  | nil =>
    exfalso
    have := (hsh l).length_eq
    rw [hs] at this
    exact hne (List.eq_nil_of_length_eq_zero this.symm)
  | cons a t =>
    refine ⟨a, rfl, ?_⟩
    have ha : a ∈ shuffle l := by rw [hs]; exact List.mem_cons_self a t
    exact (hsh l).mem_iff.mp ha

theorem foldl_min_le (vs : List Nat) :
    ∀ v : Nat, ∀ x ∈ v :: vs, vs.foldl Nat.min v ≤ x := by
  induction vs with
  | nil =>
    intro v x hx
    rcases List.mem_cons.mp hx with rfl | h
    · exact le_rfl
    · cases h
  | cons w ws ih =>
    intro v x hx
    have step : (w :: ws).foldl Nat.min v = ws.foldl Nat.min (Nat.min v w) := rfl
    rw [step]
    rcases List.mem_cons.mp hx with rfl | h
    · exact le_trans (ih (Nat.min x w) (Nat.min x w) (List.mem_cons_self _ _))
        (Nat.min_le_left x w)
    · rcases List.mem_cons.mp h with rfl | h2
      · exact le_trans (ih (Nat.min v x) (Nat.min v x) (List.mem_cons_self _ _))
          (Nat.min_le_right v x)
      · exact ih (Nat.min v w) x (List.mem_cons_of_mem _ h2)

theorem foldl_min_mem (vs : List Nat) :
    ∀ v : Nat, vs.foldl Nat.min v ∈ v :: vs := by
  induction vs with
  | nil => intro v; exact List.mem_cons_self v []
  | cons w ws ih =>
    intro v
    have step : (w :: ws).foldl Nat.min v = ws.foldl Nat.min (Nat.min v w) := rfl
    rw [step]
    have h := ih (Nat.min v w)
    have hchoice : Nat.min v w = v ∨ Nat.min v w = w := by
      rcases Nat.le_total v w with h2 | h2
      · exact Or.inl (Nat.min_eq_left h2)
      · exact Or.inr (Nat.min_eq_right h2)
    rcases List.mem_cons.mp h with h1 | h1
    · rw [h1]
      rcases hchoice with h2 | h2 <;> rw [h2]
      · exact List.mem_cons_self _ _
      · exact List.mem_cons_of_mem _ (List.mem_cons_self _ _)
    · exact List.mem_cons_of_mem _ (List.mem_cons_of_mem _ h1)

/-- Claim C2: for every non-empty pool reaching the fairness selection, the
picked id (the head of the shuffled result) has a zero per-game count for
the role whenever some pool member has a zero count; otherwise its count is
the minimum count over the pool.  Consequently a player with a positive
count is never picked while a pool member has never played the role. -/
theorem c2_fair_selector (shuffle : List Nat → List Nat) (byId : Nat → Option Player)
    (role : String) (pool : List Nat)
    (hsh : ∀ l : List Nat, (shuffle l).Perm l)
    (hne : pool ≠ [])
    (hdef : ∀ pid ∈ pool, (cnt byId role pid).isSome) :
    ∃ c, (fairSelectPool shuffle byId role pool).head? = some c ∧ c ∈ pool ∧
      ((∃ j ∈ pool, cnt byId role j = some 0) → cnt byId role c = some 0) ∧
      ((∀ j ∈ pool, cnt byId role j ≠ some 0) →
        ∃ m, cnt byId role c = some m ∧
          ∀ j ∈ pool, ∀ mj, cnt byId role j = some mj → m ≤ mj) := by
  by_cases hz : pool.filter (fun pid => decide (cnt byId role pid = some 0)) = []
  · -- no zero-count member: the minimum-count subset is shuffled
    have hnozero : ∀ j ∈ pool, cnt byId role j ≠ some 0 := by
      intro j hj hcontra
      have : j ∈ pool.filter (fun pid => decide (cnt byId role pid = some 0)) :=
        List.mem_filter.mpr ⟨hj, by simp [hcontra]⟩
      rw [hz] at this
      cases this
    have hany : (pool.map (fun pid => cnt byId role pid)).any (fun c => c.isNone) = false := by
      rw [Bool.eq_false_iff]
      intro hcontra
      rcases List.any_eq_true.mp hcontra with ⟨x, hx, hxn⟩
      rcases List.mem_map.mp hx with ⟨j, hj, rfl⟩
      have := hdef j hj
      simp [Option.isNone_iff_eq_none] at hxn
      rw [hxn] at this
      cases this
    cases hro : (pool.map (fun pid => cnt byId role pid)).reduceOption with
    | nil =>
      exfalso
      rcases List.exists_mem_of_ne_nil pool hne with ⟨j, hj⟩
      have hjs := hdef j hj
      rcases Option.isSome_iff_exists.mp hjs with ⟨mj, hmj⟩
      have hmem : some mj ∈ pool.map (fun pid => cnt byId role pid) := by
        rcases List.mem_map.mpr ⟨j, hj, hmj⟩ with h
        exact h
      have : mj ∈ (pool.map (fun pid => cnt byId role pid)).reduceOption := by
        rw [List.reduceOption_mem_iff]
        exact hmem
      rw [hro] at this
      cases this
    | cons v vs =>
      have hres : fairSelectPool shuffle byId role pool =
          shuffle (pool.filter
            (fun pid => decide (cnt byId role pid = some (vs.foldl Nat.min v)))) := by
        simp only [fairSelectPool, if_pos hz, hany, hro]
        rfl
      set minCount := vs.foldl Nat.min v with hmc
      have hmin_mem : minCount ∈ v :: vs := foldl_min_mem vs v
      have hmin_in : some minCount ∈ pool.map (fun pid => cnt byId role pid) := by
        rw [← List.reduceOption_mem_iff, hro]
        exact hmin_mem
      rcases List.mem_map.mp hmin_in with ⟨j0, hj0, hj0c⟩
      have hjmin : j0 ∈ pool.filter
          (fun pid => decide (cnt byId role pid = some minCount)) :=
        List.mem_filter.mpr ⟨hj0, by simp [hj0c]⟩
      have hfne : pool.filter
          (fun pid => decide (cnt byId role pid = some minCount)) ≠ [] :=
        List.ne_nil_of_mem hjmin
      rcases shuffle_head_mem shuffle hsh _ hfne with ⟨c, hc1, hc2⟩
      have hcpool := List.mem_filter.mp hc2
      have hcval : cnt byId role c = some minCount := by
        have := hcpool.2
        simpa using this
      refine ⟨c, ?_, hcpool.1, ?_, ?_⟩
      · rw [hres]
        exact hc1
      · intro hex
        exfalso
        rcases hex with ⟨j, hj, hjz⟩
        exact hnozero j hj hjz
      · intro _
        refine ⟨minCount, hcval, ?_⟩
        intro j hj mj hmj
        have hjm : some mj ∈ pool.map (fun pid => cnt byId role pid) :=
          List.mem_map.mpr ⟨j, hj, hmj⟩
        have : mj ∈ (pool.map (fun pid => cnt byId role pid)).reduceOption := by
          rw [List.reduceOption_mem_iff]
          exact hjm
        rw [hro] at this
        exact foldl_min_le vs v mj this
  · -- some zero-count member: the zero subset is shuffled
    rcases shuffle_head_mem shuffle hsh _ hz with ⟨c, hc1, hc2⟩
    have hcpool := List.mem_filter.mp hc2
    have hczero : cnt byId role c = some 0 := by
      have := hcpool.2
      simpa using this
    refine ⟨c, ?_, hcpool.1, fun _ => hczero, ?_⟩
    · simp only [fairSelectPool, if_neg hz]
      exact hc1
    · intro hall
      exact absurd hczero (hall c hcpool.1)

/-- Witness for C2 at a two-member pool where only one member has a zero
count for off_qb. -/
theorem c2_fair_selector_witness :
    ∃ c, (fairSelectPool (fun l => l) (byIdF c2roster) "off_qb" [1, 2]).head? = some c ∧
      c ∈ [1, 2] ∧
      ((∃ j ∈ [1, 2], cnt (byIdF c2roster) "off_qb" j = some 0) →
        cnt (byIdF c2roster) "off_qb" c = some 0) ∧
      ((∀ j ∈ [1, 2], cnt (byIdF c2roster) "off_qb" j ≠ some 0) →
        ∃ m, cnt (byIdF c2roster) "off_qb" c = some m ∧
          ∀ j ∈ [1, 2], ∀ mj, cnt (byIdF c2roster) "off_qb" j = some mj → m ≤ mj) :=
  c2_fair_selector (fun l => l) (byIdF c2roster) "off_qb" [1, 2]
    (fun l => List.Perm.refl l) (by decide) (by decide)

-- Claim C3: the anti-repeat rule

theorem head?_mem {α : Type} {l : List α} {a : α} (h : l.head? = some a) : a ∈ l := by
  cases l with
  | nil => cases h
  | cons x t =>
    have : x = a := by simpa using h
    rw [← this]
    exact List.mem_cons_self x t

theorem mem_fairSelectPool (shuffle : List Nat → List Nat) (byId : Nat → Option Player)
    (role : String) (pool : List Nat)
    (hsh : ∀ l : List Nat, (shuffle l).Perm l)
    (c : Nat) (hc : c ∈ fairSelectPool shuffle byId role pool) : c ∈ pool := by
  by_cases hz : pool.filter (fun pid => decide (cnt byId role pid = some 0)) = []
  · simp only [fairSelectPool, if_pos hz] at hc
    by_cases hany : (pool.map (fun pid => cnt byId role pid)).any (fun c => c.isNone) = true
    · rw [if_pos hany] at hc
      cases hc
    · rw [if_neg hany] at hc
      cases hro : (pool.map (fun pid => cnt byId role pid)).reduceOption with
      | nil =>
        rw [hro] at hc
        cases hc
      | cons v vs =>
        rw [hro] at hc
        have := (hsh _).mem_iff.mp hc
        exact (List.mem_filter.mp this).1
  · simp only [fairSelectPool, if_neg hz] at hc
    have := (hsh _).mem_iff.mp hc
    exact (List.mem_filter.mp this).1

/-- Claim C3 (amended to the v7 behaviour): when the pick for a role lands
on a player whose recent-role record was written in the previous series
(window one) and the strict anti-repeat filter left a non-empty pool, the
role family of the new role differs from the recorded family; and the
anti-repeat step never leaves zero candidates when the ability-filtered
pool had any. -/
theorem c3_anti_repeat (shuffle : List Nat → List Nat) (roster : List Player)
    (recent : List (Nat × RecentRec)) (settings : Settings) (role : String)
    (candidates assigned : List Nat) (currentSeries : Nat) (P : Nat) (F : String) (N : Nat)
    (hsh : ∀ l : List Nat, (shuffle l).Perm l)
    (hwin : settings.noRepeatWindow = 1)
    (hrec : lookupRecent recent P = some { role := F, series := N })
    (hcur : currentSeries = N + 1)
    (hpick : pickForRole shuffle roster recent settings role candidates assigned
      currentSeries = some P) :
    (strictNoRepeat recent 1 currentSeries (roleGroup role)
        (allowedPool roster role candidates assigned) ≠ [] →
      roleGroup role ≠ F) ∧
    (allowedPool roster role candidates assigned ≠ [] →
      antiRepeatPool recent settings.noRepeatWindow currentSeries role
        (allowedPool roster role candidates assigned) ≠ []) := by
  constructor
  · intro hstrict
    by_cases hallow : allowedPool roster role candidates assigned = []
    · exfalso
      rw [pickForRole, eligiblePoolForRole] at hpick
      rw [if_pos hallow] at hpick
      cases hpick
    · have hpool : antiRepeatPool recent settings.noRepeatWindow currentSeries role
          (allowedPool roster role candidates assigned) =
          strictNoRepeat recent 1 currentSeries (roleGroup role)
            (allowedPool roster role candidates assigned) := by
        rw [hwin, antiRepeatPool]
        simp only [Nat.lt_irrefl, if_pos Nat.zero_lt_one]
        rw [if_neg hstrict]
      rw [pickForRole, eligiblePoolForRole, if_neg hallow, hpool] at hpick
      have hPmem : P ∈ strictNoRepeat recent 1 currentSeries (roleGroup role)
          (allowedPool roster role candidates assigned) :=
        mem_fairSelectPool shuffle (byIdF roster) role _ hsh P (head?_mem hpick)
      have hcond := (List.mem_filter.mp hPmem).2
      rw [lookupRecent] at hcond
      rw [lookupRecent] at hrec
      rw [hrec] at hcond
      intro heq
      rw [hcur] at hcond
      simp [heq] at hcond
  · intro hallow
    rw [hwin, antiRepeatPool]
    simp only [if_pos Nat.zero_lt_one]
    by_cases hstrict : strictNoRepeat recent 1 currentSeries (roleGroup role)
        (allowedPool roster role candidates assigned) = []
    · rw [if_pos hstrict]
      exact hallow
    · rw [if_neg hstrict]
      exact hstrict

/-- Witness for the amended C3 theorem: the player assigned QB in series
one is picked for off_wr in series two, and WR differs from QB. -/
theorem c3_anti_repeat_witness :
    (strictNoRepeat c3v7Recent 1 2 (roleGroup "off_wr")
        (allowedPool c3v7Roster "off_wr" [1] []) ≠ [] →
      roleGroup "off_wr" ≠ "QB") ∧
    (allowedPool c3v7Roster "off_wr" [1] [] ≠ [] →
      antiRepeatPool c3v7Recent c3settings.noRepeatWindow 2 "off_wr"
        (allowedPool c3v7Roster "off_wr" [1] []) ≠ []) :=
  c3_anti_repeat (fun l => l) c3v7Roster c3v7Recent c3settings "off_wr" [1] [] 2 1 "QB" 1
    (fun l => List.Perm.refl l) (by decide) (by decide) (by decide) (by decide)

/-- Counterexample for claim C3 as stated: in the v6 part_000 variant the
anti-repeat filter compares the exact role key, so the player who was
assigned RB2 (family RB) in series one is picked for RB1 (the same family
RB) in series two even though the filtered pool was non-empty. -/
theorem c3_counterexample :
    V6.pickForRole (fun l => l) (byIdF c3v6Roster) c3v6Recent c3settings
        "RB1" [1] [] 2 = some 1 ∧
    lookupRecent c3v6Recent 1 = some { role := "RB2", series := 1 } ∧
    strictNoRepeat c3v6Recent 1 2 "RB1" (V6.availPool [1] []) ≠ [] ∧
    roleFamily "RB1" = roleFamily "RB2" := by decide

-- Claim C1: undo round trip

theorem map_id_of_eq {α : Type} (l : List α) (f : α → α) (h : ∀ a ∈ l, f a = a) :
    l.map f = l := by
  induction l with
  | nil => rfl
  | cons a tl ih =>
    rw [List.map_cons, h a (List.mem_cons_self a tl),
      ih (fun x hx => h x (List.mem_cons_of_mem a hx))]

theorem lookup_mapSet (r : String) (v : Nat) :
    ∀ ps : List (String × Nat), (ps.find? (fun e => e.1 == r)).isSome = true →
      lookupPos (ps.map (fun e => if e.1 == r then (r, v) else e)) r = some v := by
  intro ps
  induction ps with
  | nil => intro h; simp at h
  | cons a tl ih =>
    intro h
    by_cases ha : a.1 = r
    · have hb : (a.1 == r) = true := beq_iff_eq.mpr ha
      simp [lookupPos, List.find?, hb]
    · have hb : (a.1 == r) = false := beq_eq_false_iff_ne.mpr ha
      have h' : (tl.find? (fun e => e.1 == r)).isSome = true := by
        rw [List.find?] at h
        rw [hb] at h
        exact h
      have := ih h'
      rw [lookupPos] at this ⊢
      simp only [List.map_cons, if_neg (by simp [hb] : ¬ (a.1 == r) = true)]
      rw [List.find?]
      rw [hb]
      exact this

theorem setPos_present_lookup (ps : List (String × Nat)) (r : String) (v : Nat)
    (h : (lookupPos ps r).isSome = true) :
    lookupPos (setPos ps r v) r = some v := by
  have hf : (ps.find? (fun e => e.1 == r)).isSome = true := by
    rw [lookupPos] at h
    rcases hx : ps.find? (fun e => e.1 == r) with _ | e
    · rw [hx] at h; simp at h
    · simp [hx]
  rw [setPos, if_pos hf]
  exact lookup_mapSet r v ps hf

theorem setPos_present_setPos (ps : List (String × Nat)) (r : String) (w v : Nat)
    (h : (lookupPos ps r).isSome = true) :
    setPos (setPos ps r w) r v = setPos ps r v := by
  have hf : (ps.find? (fun e => e.1 == r)).isSome = true := by
    rw [lookupPos] at h
    rcases hx : ps.find? (fun e => e.1 == r) with _ | e
    · rw [hx] at h; simp at h
    · simp [hx]
  have hl : (lookupPos (setPos ps r w) r).isSome = true := by
    rw [setPos_present_lookup ps r w h]
    rfl
  have hf2 : ((setPos ps r w).find? (fun e => e.1 == r)).isSome = true := by
    rw [lookupPos] at hl
    rcases hx : (setPos ps r w).find? (fun e => e.1 == r) with _ | e
    · rw [hx] at hl; simp at hl
    · simp [hx]
  rw [setPos, if_pos hf2, setPos, if_pos hf, setPos, if_pos hf, List.map_map]
  apply List.map_congr_left
  intro e _
  by_cases he : e.1 = r
  · simp [he]
  · simp [he]

theorem setPos_self (r : String) (v : Nat) :
    ∀ ps : List (String × Nat), lookupPos ps r = some v →
      (ps.map Prod.fst).Nodup → setPos ps r v = ps := by
  intro ps
  induction ps with
  | nil => intro h _; cases h
  | cons a tl ih =>
    intro h hnd
    rcases List.nodup_cons.mp hnd with ⟨hna, hntl⟩
    by_cases ha : a.1 = r
    · have hb : (a.1 == r) = true := beq_iff_eq.mpr ha
      have hav : a.2 = v := by
        rw [lookupPos, List.find?] at h
        rw [hb] at h
        simpa using h
      have hres : ∀ e ∈ tl, (if e.1 == r then (r, v) else e) = e := by
        intro e he
        have hne : e.1 ≠ r := by
          intro hcontra
          apply hna
          have hmem : e.1 ∈ List.map Prod.fst tl := List.mem_map.mpr ⟨e, he, rfl⟩
          rw [ha, ← hcontra]
          exact hmem
        simp [beq_eq_false_iff_ne.mpr hne]
      rw [setPos, if_pos]
      · rw [List.map_cons, if_pos hb, map_id_of_eq tl _ hres, ← ha, ← hav]
      · rw [List.find?]
        rw [hb]
        rfl
    · have hb : (a.1 == r) = false := beq_eq_false_iff_ne.mpr ha
      have h' : lookupPos tl r = some v := by
        rw [lookupPos, List.find?] at h
        rw [hb] at h
        exact h
      have hf : (tl.find? (fun e => e.1 == r)).isSome = true := by
        rw [lookupPos] at h'
        rcases hx : tl.find? (fun e => e.1 == r) with _ | e
        · rw [hx] at h'; simp at h'
        · simp [hx]
      have htl := ih h' hntl
      rw [setPos] at htl
      rw [if_pos hf] at htl
      rw [setPos, if_pos]
      · rw [List.map_cons, if_neg (by simp [hb] : ¬ (a.1 == r) = true), htl]
      · rw [List.find?]
        rw [hb]
        exact hf

theorem undo_series_player (w : Phase) (sitIds : List Nat)
    (mapping : List (String × Nat)) (p : Player)
    (hnd : (p.pos.map Prod.fst).Nodup) :
    undoPlayerUpdate w sitIds
      (if w = Phase.Offense then some mapping else none)
      (if w = Phase.Defense then some mapping else none)
      (seriesPlayerUpdate sitIds mapping p) = p := by
  have hopt : (if w = Phase.Offense
        then (if w = Phase.Offense then some mapping else none)
        else (if w = Phase.Defense then some mapping else none)) = some mapping := by
    cases w <;> simp
  by_cases hsit : p.id ∈ sitIds
  · have hs : seriesPlayerUpdate sitIds mapping p = { p with sits := p.sits + 1 } := by
      rw [seriesPlayerUpdate, if_pos hsit]
    rw [hs]
    simp [undoPlayerUpdate, hsit]
  · rcases hf : mapping.find? (fun e => e.2 == p.id) with _ | e
    · have hs : seriesPlayerUpdate sitIds mapping p = p := by
        rw [seriesPlayerUpdate, if_neg hsit]
        simp only [hf]
      rw [hs]
      simp [undoPlayerUpdate, hsit, hopt, hf]
    · rcases hlp : lookupPos p.pos e.1 with _ | v
      · have hs : seriesPlayerUpdate sitIds mapping p = p := by
          rw [seriesPlayerUpdate, if_neg hsit]
          simp only [hf, hlp]
        rw [hs]
        simp [undoPlayerUpdate, hsit, hopt, hf, hlp]
      · have hs : seriesPlayerUpdate sitIds mapping p =
            { p with pos := setPos p.pos e.1 (v + 1) } := by
          rw [seriesPlayerUpdate, if_neg hsit]
          simp only [hf, hlp]
        have hsome : (lookupPos p.pos e.1).isSome = true := by
          rw [hlp]; rfl
        have h1 := setPos_present_lookup p.pos e.1 (v + 1) hsome
        have h2 := setPos_present_setPos p.pos e.1 (v + 1) v hsome
        have h3 := setPos_self e.1 v p.pos hlp hnd
        rw [hs]
        simp [undoPlayerUpdate, hsit, hopt, hf, h1, h2, h3]

theorem rightRot_leftRot (k : Nat) (l : List Nat) : rightRot k (leftRot k l) = l := by
  by_cases hk : k ≤ l.length
  · have hlen : (leftRot k l).length = l.length := by
      rw [leftRot, List.length_append, List.length_drop, List.length_take]
      omega
    rw [rightRot, hlen]
    have hdl : l.length - k = (l.drop k).length := (List.length_drop k l).symm
    rw [leftRot, hdl, List.drop_left, List.take_left, List.take_append_drop]
  · push_neg at hk
    have h1 : l.drop k = [] := List.drop_eq_nil_of_le (le_of_lt hk)
    have h2 : l.take k = l := List.take_of_length_le (le_of_lt hk)
    have h3 : l.length - k = 0 := Nat.sub_eq_zero_of_le (le_of_lt hk)
    rw [leftRot, h1, h2, List.nil_append, rightRot, h3, List.drop_zero, List.take_zero,
      List.append_nil]

theorem seriesPlayerUpdate_active (sitIds : List Nat) (mapping : List (String × Nat))
    (p : Player) : (seriesPlayerUpdate sitIds mapping p).active = p.active := by
  rw [seriesPlayerUpdate]
  by_cases h : p.id ∈ sitIds
  · simp [h]
  · simp only [if_neg h]
    rcases hf : mapping.find? (fun e => e.2 == p.id) with _ | e
    · simp [hf]
    · rcases hlp : lookupPos p.pos e.1 with _ | v
      · simp [hf, hlp]
      · simp [hf, hlp]

theorem activeCount_series_roster (roster : List Player) (sitIds : List Nat)
    (mapping : List (String × Nat)) :
    ((roster.map (seriesPlayerUpdate sitIds mapping)).filter (fun p => p.active)).length
      = (roster.filter (fun p => p.active)).length := by
  rw [← List.countP_eq_length_filter, ← List.countP_eq_length_filter, List.countP_map]
  apply List.countP_congr
  intro p _
  simp [Function.comp, seriesPlayerUpdate_active]

theorem normalizeRecentMap_id (m : List (Nat × RecentRec))
    (h : ∀ e ∈ m, roleGroup e.2.role = e.2.role) : normalizeRecentMap m = m := by
  rw [normalizeRecentMap]
  apply map_id_of_eq
  intro e he
  rw [h e he]

theorem appStateExt (a b : AppState) (h1 : a.roster = b.roster) (h2 : a.queue = b.queue)
    (h3 : a.series = b.series) (h4 : a.history = b.history) (h5 : a.settings = b.settings)
    (h6 : a.recent = b.recent) (h7 : a.captainPlan = b.captainPlan) : a = b := by
  cases a
  cases b
  simp_all

theorem undo_eq_of_getLast (s : AppState) (last : HistoryEntry)
    (h : s.history.getLast? = some last) :
    undo s = { s with
      roster := s.roster.map
        (undoPlayerUpdate last.phase last.sitIds last.offense last.defense)
      queue := rightRot (max 1 (activeCount s - s.settings.teamSize)) s.queue
      series := s.series - 1
      history := s.history.dropLast
      recent := normalizeRecentMap last.recentBefore } := by
  rw [undo, h]

/-- Claim C1, amended to the v7 App.jsx variant: for every well-formed
state (at least teamSize active players, a recent map already in role-group
normal form, duplicate-free pos keys), one nextSeries followed by undo
restores the state exactly; the queue is rotated left then right by the
same advance, the advance being recomputed from the unchanged active
count.  The part_001 counterexample below shows the first-offense bench
override breaks this round trip in that variant. -/
theorem c1_undo_roundtrip_amended (shuffle : List Nat → List Nat) (w : Phase)
    (s : AppState)
    (hact : s.settings.teamSize ≤ activeCount s)
    (hrec : ∀ e ∈ s.recent, roleGroup e.2.role = e.2.role)
    (hpos : ∀ p ∈ s.roster, (p.pos.map Prod.fst).Nodup) :
    undo (nextSeries shuffle w s) = s := by
  have hguard : ¬ (activeCount s < s.settings.teamSize) := not_lt.mpr hact
  rw [nextSeries, if_neg hguard]
  set mapping := assignMapping shuffle s.roster s.recent s.settings (rolesFor w)
      ((s.queue.drop (sitCountOf s)).take s.settings.teamSize) (s.series + 1) with hmap
  set sitIds := s.queue.take (sitCountOf s) with hsitdef
  set entry : HistoryEntry :=
    { phase := w, series := s.series + 1, sitIds := sitIds,
      playIds := (s.queue.drop (sitCountOf s)).take s.settings.teamSize,
      offense := if w = Phase.Offense then some mapping else none,
      defense := if w = Phase.Defense then some mapping else none,
      recentBefore := s.recent } with hentry
  set t : AppState :=
    { s with
      roster := s.roster.map (seriesPlayerUpdate sitIds mapping)
      queue := leftRot (max 1 (sitCountOf s)) s.queue
      series := s.series + 1
      history := s.history ++ [entry]
      recent := recentUpdate s.recent mapping (s.series + 1) } with ht
  have hhist : t.history.getLast? = some entry := by
    rw [ht]
    exact List.getLast?_concat _
  rw [undo_eq_of_getLast t entry hhist]
  have hactt : activeCount t = activeCount s := by
    rw [ht, activeCount, activeCount]
    exact activeCount_series_roster s.roster sitIds mapping
  apply appStateExt
  · show (t.roster.map _) = s.roster
    have : t.roster = s.roster.map (seriesPlayerUpdate sitIds mapping) := rfl
    rw [this, List.map_map]
    apply map_id_of_eq
    intro p hp
    exact undo_series_player w sitIds mapping p (hpos p hp)
  · show rightRot (max 1 (activeCount t - t.settings.teamSize)) t.queue = s.queue
    have hset : t.settings = s.settings := rfl
    have hq : t.queue = leftRot (max 1 (sitCountOf s)) s.queue := rfl
    rw [hset, hactt, hq, sitCountOf]
    exact rightRot_leftRot _ _
  · show t.series - 1 = s.series
    have : t.series = s.series + 1 := rfl
    rw [this, Nat.add_sub_cancel]
  · show t.history.dropLast = s.history
    have : t.history = s.history ++ [entry] := rfl
    rw [this]
    simp
  · rfl
  · show normalizeRecentMap entry.recentBefore = s.recent
    have : entry.recentBefore = s.recent := rfl
    rw [this]
    exact normalizeRecentMap_id s.recent hrec
  · rfl

/-- Witness for the amended C1 theorem at a one-player state. -/
theorem c1_undo_roundtrip_amended_witness :
    undo (nextSeries (fun l => l) Phase.Offense c1wit) = c1wit :=
  c1_undo_roundtrip_amended (fun l => l) Phase.Offense c1wit (by decide) (by decide)
    (by decide)

/-- Counterexample for claim C1 as stated: in the part_001 variant, the
first-offense bench override reorders the queue before the series, and the
undo rotation restores the reordered queue, not the pre-series one. -/
theorem c1_counterexample :
    P1.undo (P1.nextSeries (fun l => l) Phase.Offense c1state) ≠ c1state := by decide

-- Claim C7: bench rotation coverage at nine active players, team size seven

theorem seriesPlayerUpdate_id (sitIds : List Nat) (mapping : List (String × Nat))
    (p : Player) : (seriesPlayerUpdate sitIds mapping p).id = p.id := by
  rw [seriesPlayerUpdate]
  by_cases h : p.id ∈ sitIds
  · simp [h]
  · simp only [if_neg h]
    rcases hf : mapping.find? (fun e => e.2 == p.id) with _ | e
    · simp [hf]
    · rcases hlp : lookupPos p.pos e.1 with _ | v
      · simp [hf, hlp]
      · simp [hf, hlp]

theorem seriesPlayerUpdate_sits (sitIds : List Nat) (mapping : List (String × Nat))
    (p : Player) :
    (seriesPlayerUpdate sitIds mapping p).sits =
      p.sits + (if p.id ∈ sitIds then 1 else 0) := by
  rw [seriesPlayerUpdate]
  by_cases h : p.id ∈ sitIds
  · simp [h]
  · simp only [if_neg h]
    rcases hf : mapping.find? (fun e => e.2 == p.id) with _ | e
    · simp [hf]
    · rcases hlp : lookupPos p.pos e.1 with _ | v
      · simp [hf, hlp]
      · simp [hf, hlp]

theorem nextSeries_queue (shuffle : List Nat → List Nat) (w : Phase) (st : AppState)
    (hg : ¬ (activeCount st < st.settings.teamSize)) :
    (nextSeries shuffle w st).queue = leftRot (max 1 (sitCountOf st)) st.queue := by
  rw [nextSeries, if_neg hg]

theorem nextSeries_settings (shuffle : List Nat → List Nat) (w : Phase) (st : AppState)
    (hg : ¬ (activeCount st < st.settings.teamSize)) :
    (nextSeries shuffle w st).settings = st.settings := by
  rw [nextSeries, if_neg hg]

theorem nextSeries_roster (shuffle : List Nat → List Nat) (w : Phase) (st : AppState)
    (hg : ¬ (activeCount st < st.settings.teamSize)) :
    (nextSeries shuffle w st).roster = st.roster.map
      (seriesPlayerUpdate (st.queue.take (sitCountOf st))
        (assignMapping shuffle st.roster st.recent st.settings (rolesFor w)
          ((st.queue.drop (sitCountOf st)).take st.settings.teamSize) (st.series + 1))) := by
  rw [nextSeries, if_neg hg]

theorem leftRot_eq_rotate (k : Nat) (l : List Nat) (hk : k ≤ l.length) :
    leftRot k l = l.rotate k := by
  rw [leftRot, List.rotate_eq_drop_append_take hk]

theorem sitTimes_succ (q0 : List Nat) (x k : Nat) :
    sitTimes q0 x (k + 1) =
      sitTimes q0 x k + (if x ∈ (q0.rotate (2 * k)).take 2 then 1 else 0) := by
  rw [sitTimes, sitTimes, List.range_succ, List.filter_append, List.length_append]
  by_cases h : x ∈ (q0.rotate (2 * k)).take 2 <;> simp [h]

theorem forall2_map_right {α β : Type} {R S : α → β → Prop} (f : β → β) :
    ∀ {l : List α} {m : List β}, List.Forall₂ R l m →
      (∀ x y, R x y → S x (f y)) → List.Forall₂ S l (m.map f) := by
  intro l m h
  induction h with
  | nil => intro _; exact List.Forall₂.nil
  | cons hab _ ih =>
    intro hf
    exact List.Forall₂.cons (hf _ _ hab) (ih hf)

theorem forall2_imp_mem {α β : Type} {R S : α → β → Prop} :
    ∀ {l : List α} {m : List β}, List.Forall₂ R l m →
      (∀ x ∈ l, ∀ y, R x y → S x y) → List.Forall₂ S l m := by
  intro l m h
  induction h with
  | nil => intro _; exact List.Forall₂.nil
  | cons hab _ ih =>
    intro himp
    exact List.Forall₂.cons (himp _ (List.mem_cons_self _ _) _ hab)
      (ih (fun x hx y hr => himp x (List.mem_cons_of_mem _ hx) y hr))

theorem mem_take2_rotate (q0 : List Nat) (hnd : q0.Nodup) (hlen : q0.length = 9)
    (ix : Nat) (hix : ix < q0.length) (m : Nat) :
    (q0.get ⟨ix, hix⟩ ∈ (q0.rotate m).take 2) ↔ (ix = m % 9 ∨ ix = (m + 1) % 9) := by
  have hl : (q0.rotate m).length = 9 := by rw [List.length_rotate, hlen]
  have hinj := List.nodup_iff_injective_get.mp hnd
  rw [List.mem_take_iff_getElem]
  constructor
  · rintro ⟨i, hi, hval⟩
    have hi2 : i < 2 := by
      rw [hl] at hi
      omega
    have hil : i < (q0.rotate m).length := by omega
    rw [List.getElem_rotate] at hval
    have hmod : (i + m) % q0.length < q0.length := by
      apply Nat.mod_lt
      omega
    have hval' : q0.get ⟨(i + m) % q0.length, hmod⟩ = q0.get ⟨ix, hix⟩ := by
      simpa using hval
    have hfin := hinj hval'
    have hvaleq : (i + m) % q0.length = ix := congrArg Fin.val hfin
    rw [hlen] at hvaleq
    interval_cases i
    · left; omega
    · right; omega
  · intro h
    rcases h with h | h
    · refine ⟨0, ?_, ?_⟩
      · rw [hl]; omega
      · rw [List.getElem_rotate]
        have hidx : (0 + m) % q0.length = ix := by rw [hlen]; omega
        simp only [hidx, List.get_eq_getElem]
    · refine ⟨1, ?_, ?_⟩
      · rw [hl]; omega
      · rw [List.getElem_rotate]
        have hidx : (1 + m) % q0.length = ix := by rw [hlen]; omega
        simp only [hidx, List.get_eq_getElem]

theorem sitTimes_cover (q0 : List Nat) (hnd : q0.Nodup) (hlen : q0.length = 9)
    (x : Nat) (hx : x ∈ q0) : sitTimes q0 x 9 = 2 := by
  rcases List.mem_iff_get.mp hx with ⟨⟨ix, hix⟩, hget⟩
  have hpt : ∀ j ∈ List.range 9,
      (decide (x ∈ (q0.rotate (2 * j)).take 2)) =
        (decide (ix = (2 * j) % 9 ∨ ix = (2 * j + 1) % 9)) := by
    intro j _
    rw [← hget]
    apply decide_eq_decide.mpr
    have := mem_take2_rotate q0 hnd hlen ix hix (2 * j)
    rw [this]
  rw [sitTimes, List.filter_congr hpt]
  have hix9 : ix < 9 := by rw [← hlen]; exact hix
  have hcount : ∀ i, i < 9 →
      ((List.range 9).filter (fun j => decide (i = (2 * j) % 9 ∨ i = (2 * j + 1) % 9))).length
        = 2 := by decide
  exact hcount ix hix9

theorem c7_invariant (shuffle : List Nat → List Nat) (s : AppState)
    (hteam : s.settings.teamSize = 7) (hact : activeCount s = 9)
    (hqlen : s.queue.length = 9) :
    ∀ phases : List Phase,
      (runSeq shuffle phases s).settings = s.settings ∧
      activeCount (runSeq shuffle phases s) = 9 ∧
      (runSeq shuffle phases s).queue = s.queue.rotate (2 * phases.length) ∧
      List.Forall₂
        (fun p q : Player => q.id = p.id ∧ q.active = p.active ∧
          q.sits = p.sits + sitTimes s.queue p.id phases.length)
        s.roster (runSeq shuffle phases s).roster := by
  intro phases
  induction phases using List.reverseRecOn with
  | nil =>
    refine ⟨rfl, hact, by simp [runSeq], ?_⟩
    have : ∀ p ∈ s.roster, p.id = p.id ∧ p.active = p.active ∧
        p.sits = p.sits + sitTimes s.queue p.id 0 := by
      intro p _
      refine ⟨rfl, rfl, ?_⟩
      rw [sitTimes]
      simp
    exact List.forall₂_same.mpr this
  | append_singleton l w ih =>
    rcases ih with ⟨ihset, ihact, ihq, ihf⟩
    have hrun : runSeq shuffle (l ++ [w]) s = nextSeries shuffle w (runSeq shuffle l s) := by
      rw [runSeq, runSeq, List.foldl_append, List.foldl_cons, List.foldl_nil]
    set st := runSeq shuffle l s with hst
    have hg : ¬ (activeCount st < st.settings.teamSize) := by
      rw [ihact, ihset, hteam]
      omega
    have hsc : sitCountOf st = 2 := by
      rw [sitCountOf, ihact, ihset, hteam]
    have hstqlen : st.queue.length = 9 := by
      rw [ihq, List.length_rotate, hqlen]
    refine ⟨?_, ?_, ?_, ?_⟩
    · rw [hrun, nextSeries_settings shuffle w st hg, ihset]
    · rw [hrun, activeCount, nextSeries_roster shuffle w st hg,
        activeCount_series_roster]
      rw [activeCount] at ihact
      exact ihact
    · rw [hrun, nextSeries_queue shuffle w st hg, hsc]
      have hmax : (max 1 2 : Nat) = 2 := by decide
      rw [hmax]
      have h2 : (2 : Nat) ≤ st.queue.length := by omega
      rw [leftRot_eq_rotate 2 st.queue h2, ihq, List.rotate_rotate]
      have hlw : (l ++ [w]).length = l.length + 1 := by simp
      have harith : 2 * l.length + 2 = 2 * (l.length + 1) := by ring
      rw [hlw, harith]
    · rw [hrun, nextSeries_roster shuffle w st hg]
      apply forall2_map_right _ ihf
      intro p q hq
      rcases hq with ⟨hid, hactive, hsits⟩
      refine ⟨?_, ?_, ?_⟩
      · rw [seriesPlayerUpdate_id, hid]
      · rw [seriesPlayerUpdate_active, hactive]
      · have hlw : (l ++ [w]).length = l.length + 1 := by simp
        rw [seriesPlayerUpdate_sits, hsits, hid, hsc, ihq, hlw,
          sitTimes_succ, Nat.add_assoc]

/-- Claim C7: with a constant roster of nine active players and team size
seven (sit count two), after each of nine consecutive series the queue is
rotated left by advance = max(1, sitCount), and after the nine series every
active player has sat exactly two more times. -/
theorem c7_bench_rotation (shuffle : List Nat → List Nat) (phases : List Phase)
    (s : AppState)
    (hph : phases.length = 9)
    (hteam : s.settings.teamSize = 7)
    (hact : activeCount s = 9)
    (hqlen : s.queue.length = 9)
    (hqnd : s.queue.Nodup)
    (hcov : ∀ p ∈ s.roster, p.active = true → p.id ∈ s.queue) :
    (∀ k, k < 9 →
      (runSeq shuffle (phases.take (k + 1)) s).queue =
        leftRot (max 1 (activeCount (runSeq shuffle (phases.take k) s) -
            (runSeq shuffle (phases.take k) s).settings.teamSize))
          (runSeq shuffle (phases.take k) s).queue) ∧
    List.Forall₂ (fun p q : Player => p.active = true → q.sits = p.sits + 2)
      s.roster (runSeq shuffle phases s).roster := by
  constructor
  · intro k hk
    have hklt : k < phases.length := by omega
    have htake : phases.take (k + 1) = phases.take k ++ [phases.get ⟨k, hklt⟩] := by
      rw [List.take_succ]
      congr 1
      rw [List.getElem?_eq_getElem hklt]
      simp
    have hrun : runSeq shuffle (phases.take (k + 1)) s =
        nextSeries shuffle (phases.get ⟨k, hklt⟩) (runSeq shuffle (phases.take k) s) := by
      rw [htake, runSeq, runSeq, List.foldl_append, List.foldl_cons, List.foldl_nil]
    rcases c7_invariant shuffle s hteam hact hqlen (phases.take k) with ⟨ihset, ihact, _, _⟩
    have hg : ¬ (activeCount (runSeq shuffle (phases.take k) s) <
        (runSeq shuffle (phases.take k) s).settings.teamSize) := by
      rw [ihact, ihset, hteam]
      omega
    rw [hrun, nextSeries_queue _ _ _ hg]
    rfl
  · rcases c7_invariant shuffle s hteam hact hqlen phases with ⟨_, _, _, ihf⟩
    rw [hph] at ihf
    apply forall2_imp_mem ihf
    intro p hp q hq hpactive
    rcases hq with ⟨_, _, hsits⟩
    rw [hsits, sitTimes_cover s.queue hqnd hqlen p.id (hcov p hp hpactive)]

/-- Witness for C7: nine players with ids one through nine, nine offense
series. -/
theorem c7_bench_rotation_witness :
    (∀ k, k < 9 →
      (runSeq (fun l => l) ((List.replicate 9 Phase.Offense).take (k + 1)) c7wit).queue =
        leftRot (max 1 (activeCount (runSeq (fun l => l)
              ((List.replicate 9 Phase.Offense).take k) c7wit) -
            (runSeq (fun l => l) ((List.replicate 9 Phase.Offense).take k) c7wit).settings.teamSize))
          (runSeq (fun l => l) ((List.replicate 9 Phase.Offense).take k) c7wit).queue) ∧
    List.Forall₂ (fun p q : Player => p.active = true → q.sits = p.sits + 2)
      c7wit.roster (runSeq (fun l => l) (List.replicate 9 Phase.Offense) c7wit).roster :=
  c7_bench_rotation (fun l => l) (List.replicate 9 Phase.Offense) c7wit (by decide)
    (by decide) (by decide) (by decide) (by decide) (by decide)

-- Claim C9: part_001 bench overrides

theorem insertByIdx_perm (wq : List Nat) (x : Nat) (l : List Nat) :
    (P1.insertByIdx wq x l).Perm (x :: l) := by
  induction l with
  | nil => exact List.Perm.refl _
  | cons a tl ih =>
    rw [P1.insertByIdx]
    by_cases h : P1.idxOfN wq x ≤ P1.idxOfN wq a
    · rw [if_pos h]
    · rw [if_neg h]
      exact (List.Perm.cons a ih).trans (List.Perm.swap x a tl)

theorem sortByQueueIndex_perm (wq : List Nat) (l : List Nat) :
    (P1.sortByQueueIndex wq l).Perm l := by
  induction l with
  | nil => exact List.Perm.refl _
  | cons a tl ih =>
    have h1 : P1.sortByQueueIndex wq (a :: tl) =
        P1.insertByIdx wq a (P1.sortByQueueIndex wq tl) := rfl
    rw [h1]
    exact (insertByIdx_perm wq a _).trans (List.Perm.cons a ih)

theorem idxOfN_spec (x : Nat) :
    ∀ l : List Nat, x ∈ l →
      ∃ h : P1.idxOfN l x < l.length, l.get ⟨P1.idxOfN l x, h⟩ = x := by
  intro l
  induction l with
  | nil => intro h; cases h
  | cons a tl ih =>
    intro hmem
    by_cases hax : a = x
    · have hb : (a == x) = true := beq_iff_eq.mpr hax
      rw [P1.idxOfN, if_pos hb]
      exact ⟨Nat.succ_pos _, hax⟩
    · have hb : (a == x) = false := beq_eq_false_iff_ne.mpr hax
      have hmem' : x ∈ tl := by
        rcases List.mem_cons.mp hmem with h | h
        · exact absurd h.symm hax
        · exact h
      rcases ih hmem' with ⟨h, hget⟩
      rw [P1.idxOfN, if_neg (by simp [hb])]
      refine ⟨Nat.succ_lt_succ h, ?_⟩
      exact hget

theorem idxOfN_unique (x : Nat) :
    ∀ l : List Nat, l.Nodup → ∀ (i : Nat) (hi : i < l.length),
      l.get ⟨i, hi⟩ = x → P1.idxOfN l x = i := by
  intro l
  induction l with
  | nil => intro _ i hi; exact absurd hi (Nat.not_lt_zero i)
  | cons a tl ih =>
    intro hnd i hi hget
    rcases List.nodup_cons.mp hnd with ⟨hna, hntl⟩
    cases i with
    | zero =>
      have hax : a = x := hget
      rw [P1.idxOfN, if_pos (beq_iff_eq.mpr hax)]
    | succ j =>
      have hj : j < tl.length := by simpa using hi
      have hget' : tl.get ⟨j, hj⟩ = x := hget
      have hax : a ≠ x := by
        intro hcontra
        apply hna
        rw [hcontra]
        exact List.mem_iff_get.mpr ⟨⟨j, hj⟩, hget'⟩
      rw [P1.idxOfN, if_neg (by simp [beq_eq_false_iff_ne.mpr hax]), ih hntl j hj hget']

/-- Claim C9, amended: in the part_001 variant the bench assignment is
overridden by hardcoded names, but on the first Offense series only the
first min(sitCount, available) of the BENCH_PRIORITY_FIRST_OFFENSE players
are moved to the front (so with two bench seats and all three active the
third priority player plays); on the first Defense series the named players
are placed directly after the bench slice, hence into the playing slice
whenever they fit in the team size; whenever all three BENCH_NEVER_ALL
players would sit together and a non-avoid playing candidate exists, one of
the three is swapped into the playing slice; and the sitting set therefore
is not always the first sitCount entries of the pre-series queue. -/
theorem c9_bench_overrides_amended :
    (∀ (roster : List Player) (sitCount : Nat) (wq : List Nat),
      P1.priorityIdsOf roster wq ≠ [] →
      ∀ pid ∈ (P1.priorityIdsOf roster wq).take
          (min sitCount (P1.priorityIdsOf roster wq).length),
        pid ∈ (P1.firstOffenseQueue roster sitCount wq).take sitCount) ∧
    (∀ (roster : List Player) (sitCount teamSize : Nat) (wq : List Nat),
      P1.requiredIdsOf roster wq ≠ [] →
      sitCount ≤ (wq.filter (fun pid =>
        !(decide (pid ∈ P1.sortByQueueIndex wq (P1.requiredIdsOf roster wq))))).length →
      (P1.requiredIdsOf roster wq).length ≤ teamSize →
      ∀ pid ∈ P1.requiredIdsOf roster wq,
        pid ∈ ((P1.firstDefenseQueue roster sitCount wq).drop sitCount).take teamSize) ∧
    (∀ (roster : List Player) (sitCount teamSize : Nat) (wq : List Nat) (c : Nat),
      wq.Nodup → ¬ sitCount = 0 →
      (P1.avoidIdsOf roster wq).length = P1.BENCH_NEVER_ALL.length →
      (∀ pid ∈ P1.avoidIdsOf roster wq, pid ∈ wq.take sitCount) →
      ((wq.drop sitCount).take teamSize).find?
        (fun pid => !(decide (pid ∈ P1.avoidIdsOf roster wq))) = some c →
      ∃ a ∈ P1.avoidIdsOf roster wq,
        a ∉ (P1.neverAllSwap roster sitCount teamSize wq).take sitCount) ∧
    ((P1.nextSeries (fun l => l) Phase.Offense c9state).history.map (fun e => e.sitIds) ≠
      [c9state.queue.take 2]) := by
  refine ⟨?_, ?_, ?_, by decide⟩
  · -- first offense: the benched prefix of the priority list sits
    intro roster sitCount wq hne pid hpid
    rw [P1.firstOffenseQueue]
    rw [if_neg hne]
    set P := P1.priorityIdsOf roster wq with hP
    have hlenTF : (P.take (min sitCount P.length)).length ≤ sitCount := by
      rw [List.length_take]
      omega
    rw [List.take_append_eq_append_take,
      List.take_of_length_le hlenTF]
    exact List.mem_append_left _ hpid
  · -- first defense: required players land in the playing slice
    intro roster sitCount teamSize wq hne hsit hteam pid hpid
    rw [P1.firstDefenseQueue, if_neg hne]
    set R := P1.sortByQueueIndex wq (P1.requiredIdsOf roster wq) with hR
    set F := wq.filter (fun pid => !(decide (pid ∈ R))) with hF
    have hRperm : R.Perm (P1.requiredIdsOf roster wq) := sortByQueueIndex_perm _ _
    have hA : (F.take sitCount).length = sitCount := by
      rw [List.length_take]
      rw [hF, hR]
      rw [hF, hR] at hsit
      omega
    rw [List.append_assoc, List.drop_append_eq_append_drop]
    have h1 : (F.take sitCount).drop sitCount = [] :=
      List.drop_eq_nil_of_le (by rw [hA])
    have h2 : sitCount - (F.take sitCount).length = 0 := by
      rw [hA]
      omega
    have hRlen : R.length ≤ teamSize := by
      rw [hRperm.length_eq]
      exact hteam
    rw [hF] at h1 h2
    rw [h1, h2, List.drop_zero, List.nil_append, List.take_append_eq_append_take,
      List.take_of_length_le hRlen]
    exact List.mem_append_left _ (hRperm.mem_iff.mpr hpid)
  · -- never-all: one avoid id is swapped into the playing slice
    intro roster sitCount teamSize wq c hnd hsc hlen3 hall hfind
    have hAne : P1.avoidIdsOf roster wq ≠ [] := by
      intro h
      rw [h] at hlen3
      simp [P1.BENCH_NEVER_ALL] at hlen3
    obtain ⟨a, rest, heq⟩ := List.exists_cons_of_ne_nil hAne
    have hain : a ∈ P1.avoidIdsOf roster wq := by
      rw [heq]
      exact List.mem_cons_self a rest
    refine ⟨a, hain, ?_⟩
    have hasit : a ∈ wq.take sitCount := hall a hain
    have hawq : a ∈ wq := List.mem_of_mem_take hasit
    have hcplay : c ∈ (wq.drop sitCount).take teamSize := List.mem_of_find?_eq_some hfind
    have hcp := List.find?_some hfind
    have hcnot : c ∉ P1.avoidIdsOf roster wq := by simpa using hcp
    have hcwq : c ∈ wq := List.mem_of_mem_drop (List.mem_of_mem_take hcplay)
    have hac : a ≠ c := fun h => hcnot (h ▸ hain)
    obtain ⟨hbIlt, hbIget⟩ := idxOfN_spec a wq hawq
    obtain ⟨hpIlt, hpIget⟩ := idxOfN_spec c wq hcwq
    have hbIsit : P1.idxOfN wq a < sitCount := by
      rcases List.mem_take_iff_getElem.mp hasit with ⟨i, hi, hival⟩
      have hiwq : i < wq.length := by omega
      have hisc : i < sitCount := by omega
      have := idxOfN_unique a wq hnd i hiwq (by simpa using hival)
      omega
    have hpIge : sitCount ≤ P1.idxOfN wq c := by
      have hcdrop : c ∈ wq.drop sitCount := List.mem_of_mem_take hcplay
      rcases List.mem_iff_get.mp hcdrop with ⟨⟨j, hj⟩, hjval⟩
      have hjwq : sitCount + j < wq.length := by
        rw [List.length_drop] at hj
        omega
      have hwqval : wq.get ⟨sitCount + j, hjwq⟩ = c := by
        have hgd : (wq.drop sitCount).get ⟨j, hj⟩ = wq.get ⟨sitCount + j, hjwq⟩ := by
          simp only [List.get_eq_getElem]
          exact List.getElem_drop ..
        rw [← hgd]
        exact hjval
      have := idxOfN_unique c wq hnd (sitCount + j) hjwq hwqval
      omega
    have hfinda : (P1.avoidIdsOf roster wq).find?
        (fun pid => decide (pid ∈ wq.take sitCount)) = some a := by
      rw [heq]
      exact List.find?_cons_of_pos _ (by simp [hasit])
    have hgc : wq.getD (P1.idxOfN wq c) 0 = c := by
      rw [List.getD_eq_getElem wq 0 hpIlt]
      simp only [List.get_eq_getElem] at hpIget
      exact hpIget
    have hga : wq.getD (P1.idxOfN wq a) 0 = a := by
      rw [List.getD_eq_getElem wq 0 hbIlt]
      simp only [List.get_eq_getElem] at hbIget
      exact hbIget
    have hres : P1.neverAllSwap roster sitCount teamSize wq =
        (wq.set (P1.idxOfN wq a) c).set (P1.idxOfN wq c) a := by
      rw [P1.neverAllSwap, if_neg hsc, if_pos ⟨hlen3, hall⟩]
      simp only [hfind, hfinda]
      rw [if_pos ⟨hbIlt, hpIlt⟩, hgc, hga]
    rw [hres]
    intro hcontra
    rcases List.mem_take_iff_getElem.mp hcontra with ⟨i, hi, hival⟩
    have hilen : i < wq.length := by
      rw [List.length_set, List.length_set] at hi
      omega
    have hisit : i < sitCount := by omega
    have hinePI : P1.idxOfN wq c ≠ i := by omega
    rw [List.getElem_set_ne hinePI] at hival
    by_cases hibI : i = P1.idxOfN wq a
    · subst hibI
      rw [List.getElem_set_self] at hival
      exact hac hival.symm
    · have hbine : P1.idxOfN wq a ≠ i := fun h => hibI h.symm
      rw [List.getElem_set_ne hbine] at hival
      have := idxOfN_unique a wq hnd i hilen (by simpa using hival)
      exact hibI this.symm

/-- Witness for the amended C9 theorem: the first priority player is
benched on the first offense of the concrete c9state. -/
theorem c9_bench_overrides_amended_witness :
    1 ∈ (P1.firstOffenseQueue c9state.roster 2 c9state.queue).take 2 :=
  c9_bench_overrides_amended.1 c9state.roster 2 c9state.queue (by decide) 1 (by decide)

/-- Counterexample for claim C9 as stated: all three priority names are
active, the first offense has two bench seats, yet Gunnar (id three) is not
moved to the bench, contradicting the claim that the named active players
sit. -/
theorem c9_counterexample :
    P1.findActivePlayerIdByName c9state.roster "Gunnar" = some 3 ∧
    c9state.benchMeta.firstOffenseHandled = false ∧
    0 < (c9state.roster.filter (fun p => p.active)).length - c9state.settings.teamSize ∧
    (P1.nextSeries (fun l => l) Phase.Offense c9state).history.map
      (fun e => decide (3 ∈ e.sitIds)) = [false] := by decide

end FlagCoach
